import Mathlib

/-!
# Verification of the sprawl/taffy layout engine against its specification

This file gives a shallow embedding, in Lean 4, of the parts of the
DioxusLabs/sprawl layout engine that the verified claims are about, together
with theorems settling each claim.

Modelling conventions:
* Rust `f32` values are modelled as exact rationals (`ℚ`).  All concrete
  inputs used in counterexamples/witnesses are small dyadic rationals whose
  `f32` arithmetic in the source is exact, so the divergences exhibited are
  real and not float artefacts.
* Machine integers (`i16`, `u16`) are modelled as `ℤ`/`ℕ`; where the source
  would panic (debug overflow, explicit `panic!` calls) the embedded
  function returns `Option.none`.
* Stateful code is embedded as explicit state passing; tree mutation is
  embedded as a function from trees to trees.
* Code of the repository that is *not* present under `src/` (only its
  callers are) is modelled from the specification; each such definition
  carries a doc comment starting with `Modelled from the spec:`.
-/

namespace Sprawl

/-! ## Geometry primitives (src/geometry.rs, reconstructed from usage)

`Point`, `Size`, `Rect` and `Line` are plain product types; these mirror
the structs of the source's geometry module. -/

/-- A 2-dimensional point (`Point<T>` in the source). -/
structure Point (α : Type) where
  x : α
  y : α
deriving Repr, DecidableEq

/-- A 2-dimensional size (`Size<T>` in the source). -/
structure Size (α : Type) where
  width : α
  height : α
deriving Repr, DecidableEq

/-- The four sides of a box (`Rect<T>` in the source). -/
structure Rect (α : Type) where
  left : α
  right : α
  top : α
  bottom : α
deriving Repr, DecidableEq

/-- A start/end pair (`Line<T>` in the source). -/
structure Line (α : Type) where
  start : α
  finish : α
deriving Repr, DecidableEq

/-- `Rect::horizontal_axis_sum`: `left + right`. -/
def Rect.horizontal_axis_sum (r : Rect ℚ) : ℚ := r.left + r.right

/-- `Rect::vertical_axis_sum`: `top + bottom`. -/
def Rect.vertical_axis_sum (r : Rect ℚ) : ℚ := r.top + r.bottom

/-! ## Rounding (src/src/compute/taffy_tree.rs, `round_layout`)

The source rounds with Rust's `f32::round`, which rounds half away from
zero. -/

/-- Rust `f32::round`: round half away from zero, as a function `ℚ → ℤ`. -/
def roundHalfAway (q : ℚ) : ℤ :=
  if 0 ≤ q then ⌊q + 1/2⌋ else -⌊(1/2) - q⌋

/-- `round` as it is used inside `round_layout`: result viewed back in `ℚ`. -/
def roundq (q : ℚ) : ℚ := (roundHalfAway q : ℚ)

/-- `Layout { order, size, location }` (struct `Layout` of the source). -/
structure Layout where
  order : ℕ
  size : Size ℚ
  location : Point ℚ
deriving Repr, DecidableEq

/-- A layout tree: each node stores its (unrounded or rounded) `Layout`
and its ordered children.  This is the view of the `Taffy` tree that
`round_layout` traverses (it only touches each node's `Layout` and
recurses on `child(node, i)` for `i < child_count`). -/
inductive LTree where
  | node (layout : Layout) (children : List LTree)
deriving Repr

/-- The stored layout at the root of a layout tree. -/
def LTree.layout : LTree → Layout
  | .node l _ => l

/-- The children of the root of a layout tree. -/
def LTree.children : LTree → List LTree
  | .node _ cs => cs

/-- `round_layout(tree, node, abs_x, abs_y)` from
`src/src/compute/taffy_tree.rs` lines 196–211, as a pure tree transformer:

```
let abs_x = abs_x + layout.location.x;
let abs_y = abs_y + layout.location.y;
layout.location.x = round(layout.location.x);
layout.location.y = round(layout.location.y);
layout.size.width = round(abs_x + layout.size.width) - round(abs_x);
layout.size.height = round(abs_y + layout.size.height) - round(abs_y);
// recurse on children with the (unrounded) accumulated abs_x, abs_y
```
-/
def round_layout (abs_x abs_y : ℚ) (t : LTree) : LTree :=
  match t with
  | .node l cs =>
    let ax := abs_x + l.location.x
    let ay := abs_y + l.location.y
    let rounded : Layout :=
      { order := l.order
        size := { width := roundq (ax + l.size.width) - roundq ax
                  height := roundq (ay + l.size.height) - roundq ay }
        location := { x := roundq l.location.x, y := roundq l.location.y } }
    .node rounded (cs.attach.map (fun c => round_layout ax ay c.1))
termination_by sizeOf t
decreasing_by
  simp only [LTree.node.sizeOf_spec]
  have := List.sizeOf_lt_of_mem c.2
  omega

/-- Unfolding equation for `round_layout` on a node. -/
theorem round_layout_node (ax0 ay0 : ℚ) (l : Layout) (cs : List LTree) :
    round_layout ax0 ay0 (.node l cs) =
      .node
        { order := l.order
          size := { width := roundq (ax0 + l.location.x + l.size.width)
                      - roundq (ax0 + l.location.x)
                    height := roundq (ay0 + l.location.y + l.size.height)
                      - roundq (ay0 + l.location.y) }
          location := { x := roundq l.location.x, y := roundq l.location.y } }
        (cs.map (round_layout (ax0 + l.location.x) (ay0 + l.location.y))) := by
  rw [round_layout]
  simp [List.attach_map_val]

/-- A rational that is (the image of) an integer. -/
def IsInt (q : ℚ) : Prop := ∃ n : ℤ, q = (n : ℚ)

theorem IsInt.add {a b : ℚ} (ha : IsInt a) (hb : IsInt b) : IsInt (a + b) := by
  obtain ⟨m, rfl⟩ := ha; obtain ⟨n, rfl⟩ := hb
  exact ⟨m + n, by push_cast; ring⟩

theorem IsInt.sub {a b : ℚ} (ha : IsInt a) (hb : IsInt b) : IsInt (a - b) := by
  obtain ⟨m, rfl⟩ := ha; obtain ⟨n, rfl⟩ := hb
  exact ⟨m - n, by push_cast; ring⟩

theorem isInt_zero : IsInt 0 := ⟨0, by norm_num⟩

theorem isInt_roundq (q : ℚ) : IsInt (roundq q) := ⟨roundHalfAway q, rfl⟩

/-- Rounding an integer returns it unchanged. -/
theorem roundq_int {q : ℚ} (h : IsInt q) : roundq q = q := by
  obtain ⟨n, rfl⟩ := h
  unfold roundq roundHalfAway
  rcases le_or_lt 0 (n : ℚ) with hn | hn
  · rw [if_pos hn, Int.floor_int_add]
    norm_num
  · rw [if_neg (not_le.mpr hn)]
    rw [show (1 : ℚ)/2 - (n : ℚ) = ((-n : ℤ) : ℚ) + (1/2 : ℚ) by push_cast; ring]
    rw [Int.floor_int_add]
    norm_num

/-- Every location and size stored in the tree is an integer. -/
inductive AllInt : LTree → Prop where
  | node {l : Layout} {cs : List LTree}
      (hx : IsInt l.location.x) (hy : IsInt l.location.y)
      (hw : IsInt l.size.width) (hh : IsInt l.size.height)
      (hcs : ∀ c ∈ cs, AllInt c) : AllInt (.node l cs)

/-- After one rounding pass every coordinate in the tree is an integer
(part (a) of the spec's rounding guarantee). -/
theorem allInt_round_layout (ax ay : ℚ) (t : LTree) : AllInt (round_layout ax ay t) := by
  induction ax, ay, t using round_layout.induct with
  | _ ax ay l cs ax2 ay2 ih =>
    rw [round_layout_node]
    refine AllInt.node ?_ ?_ ?_ ?_ ?_
    · exact isInt_roundq _
    · exact isInt_roundq _
    · exact (isInt_roundq _).sub (isInt_roundq _)
    · exact (isInt_roundq _).sub (isInt_roundq _)
    · intro c hc
      obtain ⟨c0, hc0, rfl⟩ := List.mem_map.mp hc
      exact ih ⟨c0, hc0⟩

/-- On a tree whose coordinates are all integers, `round_layout` with
integer offsets is the identity. -/
theorem round_layout_fixed (ax ay : ℚ) (t : LTree) :
    IsInt ax → IsInt ay → AllInt t → round_layout ax ay t = t := by
  induction ax, ay, t using round_layout.induct with
  | _ ax ay l cs ax2 ay2 ih =>
    intro hax hay ht
    cases ht with
    | node hx hy hw hh hcs =>
      rw [round_layout_node]
      have hax' : IsInt (ax + l.location.x) := hax.add hx
      have hay' : IsInt (ay + l.location.y) := hay.add hy
      have hmap : List.map (round_layout (ax + l.location.x) (ay + l.location.y)) cs = cs := by
        have hcong :
            List.map (round_layout (ax + l.location.x) (ay + l.location.y)) cs
              = List.map id cs :=
          List.map_congr_left (fun c hc => ih ⟨c, hc⟩ hax' hay' (hcs c hc))
        rw [hcong, List.map_id]
      obtain ⟨o, ⟨w, h⟩, ⟨lx, ly⟩⟩ := l
      simp only at hx hy hw hh hax' hay' hmap
      have e1 : roundq (ax + lx + w) - roundq (ax + lx) = w := by
        rw [show ax + lx + w = (ax + lx) + w by ring,
          roundq_int (hax'.add hw), roundq_int hax']; ring
      have e2 : roundq (ay + ly + h) - roundq (ay + ly) = h := by
        rw [show ay + ly + h = (ay + ly) + h by ring,
          roundq_int (hay'.add hh), roundq_int hay']; ring
      rw [hmap, e1, e2, roundq_int hx, roundq_int hy]

/-- Default layout used by the child accessor when the index is out of range. -/
def nilLayout : Layout := { order := 0, size := { width := 0, height := 0 }, location := { x := 0, y := 0 } }

/-- The `i`-th child subtree (a default empty node when out of range). -/
def LTree.childD (t : LTree) (i : ℕ) : LTree := t.children.getD i (.node nilLayout [])

/-- The concrete computed tree on which `round_layout` breaks sibling
continuity: the root holds one container `P` at unrounded location
`x = 1/4`, and `P` holds two adjacent siblings `A` (location `x = 0`,
width `1/4`) and `B` (location `x = 1/4`, width `1/2`).  All the numbers
are small dyadics, exactly representable in `f32`, and every `f32`
operation the source performs on them is exact. -/
def c3tree : LTree :=
  .node { order := 0, size := { width := 2, height := 2 }, location := { x := 0, y := 0 } }
    [.node { order := 0, size := { width := 1, height := 1 }, location := { x := 1/4, y := 0 } }
      [.node { order := 0, size := { width := 1/4, height := 1 }, location := { x := 0, y := 0 } } [],
       .node { order := 1, size := { width := 1/2, height := 1 }, location := { x := 1/4, y := 0 } } []]]

/-- Claim C3 (code_bug evaluation): on the concrete tree `c3tree`, the
unrounded right edge of sibling `A` equals the unrounded left edge of
sibling `B`, yet after `round_layout` (run exactly as `compute_layout`
runs it, with zero absolute offset) `A`'s final right edge is `1` while
`B`'s final left edge is `0` — the rounding pass introduces an overlap,
contradicting the claimed continuity guarantee (and the function's own
comment).  The divergence arises because `location` is rounded on its
parent-relative value while the width is rounded on absolute
coordinates. -/
theorem round_layout_gap_on_c3tree :
    (c3tree.childD 0 |>.childD 0).layout.location.x
        + (c3tree.childD 0 |>.childD 0).layout.size.width
      = (c3tree.childD 0 |>.childD 1).layout.location.x
    ∧ ((round_layout 0 0 c3tree).childD 0 |>.childD 0).layout.location.x
        + ((round_layout 0 0 c3tree).childD 0 |>.childD 0).layout.size.width
      = 1
    ∧ ((round_layout 0 0 c3tree).childD 0 |>.childD 1).layout.location.x = 0 := by
  simp only [c3tree, round_layout_node, List.map_cons, List.map_nil, LTree.childD,
    LTree.children, LTree.layout, List.getD, List.get?, Option.getD]
  norm_num [roundq, roundHalfAway]

/-- Claim C4: the rounding pass is idempotent — applying `round_layout`
a second time from the same root with zero absolute offset leaves every
node's location and size unchanged. -/
theorem round_layout_idempotent (t : LTree) :
    round_layout 0 0 (round_layout 0 0 t) = round_layout 0 0 t :=
  round_layout_fixed 0 0 (round_layout 0 0 t) isInt_zero isInt_zero
    (allInt_round_layout 0 0 t)

/-! ## Style dimensions and `calc()` trees (src/src/style/dimension.rs) -/

/-- `RoundingStrategy` of the source (`Up`, `Down`, `Nearest`, `ToZero`). -/
inductive RoundingStrategy where
  | up
  | down
  | nearest
  | toZero
deriving Repr, DecidableEq

mutual
/-- `LengthPercentage`: an absolute length, a percentage of the parent, or a
`calc()` expression. -/
inductive LengthPercentage where
  | length (v : ℚ)
  | percent (p : ℚ)
  | calculation (c : CalcNode)
deriving Repr

/-- `CalcNode` of src/src/style/dimension.rs lines 213–231. -/
inductive CalcNode where
  | leaf (l : LengthPercentage)
  | sum (lhs rhs : CalcNode)
  | difference (lhs rhs : CalcNode)
  | product (lhs rhs : CalcNode)
  | quotient (lhs rhs : CalcNode)
  | negate (node : CalcNode)
  | minimum (nodes : List CalcNode)
  | maximum (nodes : List CalcNode)
  | clamp (min center max : CalcNode)
  | round (strategy : RoundingStrategy) (value interval : CalcNode)
deriving Repr
end

/-- The `CalcNode::Round` arm of `resolve` (lines 257–327), as a function
of the already-resolved `value` and `interval`.  `f32` values are modelled
as exact rationals; consequently the `NaN`/infinity special cases (zero
interval, infinite operands — lines 268–303) cannot arise: the
zero-interval guard, which the source answers with `NaN`, is modelled as
`0`, and the infinite-operand branches are unreachable.  No claim touches
those branches. -/
def calcRound (strategy : RoundingStrategy) (value interval : ℚ) : ℚ :=
  if interval = 0 then 0
  else
    let div := value / interval
    let lower_bound := (⌊div⌋ : ℚ) * interval
    let upper_bound := (⌈div⌉ : ℚ) * interval
    match strategy with
    | .up => upper_bound
    | .down => lower_bound
    | .nearest =>
      if value - lower_bound < upper_bound - value then lower_bound else upper_bound
    | .toZero =>
      if |lower_bound| < |upper_bound| then lower_bound else upper_bound

/-- Rust's `Iterator::reduce(f32::min).unwrap_or_default()`: pairwise
minimum folded from the left, `0` on the empty list. -/
def reduceMin : List ℚ → ℚ
  | [] => 0
  | x :: xs => xs.foldl Min.min x

/-- Rust's `Iterator::reduce(f32::max).unwrap_or_default()`: pairwise
maximum folded from the left, `0` on the empty list. -/
def reduceMax : List ℚ → ℚ
  | [] => 0
  | x :: xs => xs.foldl Max.max x

mutual
/-- `LengthPercentage::resolve(percentage_length)` (lines 25–31). -/
def LengthPercentage.resolve : LengthPercentage → ℚ → ℚ
  | .length v, _ => v
  | .percent fraction, percentage_length => fraction * percentage_length
  | .calculation c, percentage_length => c.resolve percentage_length
termination_by lp _ => sizeOf lp
decreasing_by
  all_goals simp_wf

/-- `CalcNode::resolve(percentage_length)` (lines 233–329).  The `Clamp`
arm computes, exactly as the source does, `max := value.max(max)` followed
by `min := min.min(max)` and returns that `min`; the `Round` arm defers to
`calcRound` on the resolved operands. -/
def CalcNode.resolve : CalcNode → ℚ → ℚ
  | .leaf l, percentage_length => l.resolve percentage_length
  | .sum lhs rhs, b => lhs.resolve b + rhs.resolve b
  | .difference lhs rhs, b => lhs.resolve b - rhs.resolve b
  | .product lhs rhs, b => lhs.resolve b * rhs.resolve b
  | .quotient lhs rhs, b => lhs.resolve b / rhs.resolve b
  | .negate node, b => -(node.resolve b)
  | .minimum nodes, b => reduceMin (nodes.attach.map fun c => c.1.resolve b)
  | .maximum nodes, b => reduceMax (nodes.attach.map fun c => c.1.resolve b)
  | .clamp mn v mx, b =>
    let lo := mn.resolve b
    let value := v.resolve b
    let hi := mx.resolve b
    let hi2 := Max.max value hi
    let lo2 := Min.min lo hi2
    lo2
  | .round strategy value interval, b => calcRound strategy (value.resolve b) (interval.resolve b)
termination_by cn _ => sizeOf cn
decreasing_by
  all_goals simp_wf
  all_goals try omega
  all_goals (have hsz := List.sizeOf_lt_of_mem c.2; omega)
end

/-- Claim C6: for every `Calc` clamp node and every percentage basis,
resolving `Clamp {min := lo, center := v, max := hi}` returns
`min(lo', max(v', hi'))`, where `lo'`, `v'`, `hi'` are the resolved
values of the three operands against that basis. -/
theorem calcNode_clamp_resolve (lo v hi : CalcNode) (basis : ℚ) :
    (CalcNode.clamp lo v hi).resolve basis
      = Min.min (lo.resolve basis) (Max.max (v.resolve basis) (hi.resolve basis)) := by
  simp only [CalcNode.resolve]

/-! ## Grid line coordinates (src/src/compute/grid/types/coordinates.rs) -/

/-- `GridLine::into_origin_zero_line(explicit_track_count)` (lines 31–39).
The `i16` grid line is modelled as `ℤ` and the `u16` track count as `ℕ`;
`none` models a panic (the explicit `panic!` on a zero line, and debug-mode
overflow of `explicit_track_count + 1` in `u16` or of the `i16` addition).
The `as i16` cast of `explicit_line_count` wraps modulo `2^16`. -/
def into_origin_zero_line (n : ℤ) (explicit_track_count : ℕ) : Option ℤ :=
  if explicit_track_count + 1 > 65535 then none
  else
    let explicit_line_count : ℕ := explicit_track_count + 1
    let cast_i16 : ℤ :=
      if explicit_line_count < 32768 then (explicit_line_count : ℤ)
      else (explicit_line_count : ℤ) - 65536
    if 0 < n then some (n - 1)
    else if n < 0 then
      if -32768 ≤ n + cast_i16 ∧ n + cast_i16 ≤ 32767 then some (n + cast_i16) else none
    else none

/-- Claim C7: for every nonzero CSS grid line index `n` (an `i16`) and
explicit track count `t` with `t + 1` representable as a positive `i16`
line count, `into_origin_zero_line` maps a positive `n` to origin-zero
line `n - 1` and a negative `n` to origin-zero line `n + t + 1` (negative
references are measured from `explicit_track_count + 1`). -/
theorem into_origin_zero_line_spec (n : ℤ) (t : ℕ)
    (hn₁ : -32768 ≤ n) (hn₂ : n ≤ 32767) (ht : t + 1 ≤ 32767) :
    (0 < n → into_origin_zero_line n t = some (n - 1))
    ∧ (n < 0 → into_origin_zero_line n t = some (n + t + 1)) := by
  constructor
  · intro hpos
    unfold into_origin_zero_line
    rw [if_neg (by omega)]
    simp only
    rw [if_pos hpos]
  · intro hneg
    unfold into_origin_zero_line
    rw [if_neg (by omega)]
    simp only
    rw [if_neg (by omega), if_pos hneg, if_pos (by constructor <;> (push_cast; omega))]
    rw [if_pos (by omega)]
    congr 1
    push_cast
    ring

/-- Witness for claim C7 at the concrete input `n = -1`, `t = 3`
(and `n = 2` for the positive case). -/
theorem into_origin_zero_line_spec_witness :
    into_origin_zero_line (-1) 3 = some 3 ∧ into_origin_zero_line 2 3 = some 1 := by
  constructor
  · have h := (into_origin_zero_line_spec (-1) 3 (by norm_num) (by norm_num) (by norm_num)).2
      (by norm_num)
    rw [h]; norm_num
  · have h := (into_origin_zero_line_spec 2 3 (by norm_num) (by norm_num) (by norm_num)).1
      (by norm_num)
    rw [h]
    norm_num

/-! ## Grid track distribution (src/src/compute/grid/track_sizing.rs,
`distribute_space_up_to_limits`, lines 399–440) -/

/-- The two fields of `GridTrack` that `distribute_space_up_to_limits`
reads and writes. -/
structure GridTrack where
  base_size : ℚ
  growth_limit : ℚ
deriving Repr, DecidableEq

/-- The `THRESHOLD` constant (`0.000001`) of the distribution loops. -/
def THRESHOLD : ℚ := 1/1000000

/-- A track passes both loop filters: `track.base_size < track.growth_limit`
and `track_is_affected(track)`. -/
def growable (affected : GridTrack → Bool) (t : GridTrack) : Bool :=
  (decide (t.base_size < t.growth_limit)) && affected t

/-- `distribute_space_up_to_limits(space_to_distribute, tracks, track_is_affected)`.
The source's unbounded `while space_to_distribute > THRESHOLD` loop is
modelled with an explicit `fuel` parameter: `fuel = 0` returns the current
state unevaluated, and the termination theorem below shows that
`tracks.len() + 1` units of fuel always suffice (further fuel never
changes the result), which is exactly the claim that the source loop
terminates within `tracks.len() + 1` iterations.  Each iteration computes
`min_increase_limit` as the least `growth_limit - base_size` over the
growable affected tracks (`min_by` over a nonempty iterator, here
`reduceMin` over a nonempty list), takes
`item_incurred_increase = min(min_increase_limit, space / n)`, adds it to
every growable affected track, and subtracts `increase * n` from the
remaining space. -/
def distribute_space_up_to_limits (affected : GridTrack → Bool) :
    ℕ → ℚ → List GridTrack → ℚ × List GridTrack
  | 0, space_to_distribute, tracks => (space_to_distribute, tracks)
  | fuel + 1, space_to_distribute, tracks =>
    if space_to_distribute > THRESHOLD then
      let g := tracks.filter (growable affected)
      if g.length = 0 then (space_to_distribute, tracks)
      else
        let min_increase_limit := reduceMin (g.map fun t => t.growth_limit - t.base_size)
        let item_incurred_increase :=
          Min.min min_increase_limit (space_to_distribute / (g.length : ℚ))
        let tracks2 := tracks.map fun t =>
          if growable affected t then
            { t with base_size := t.base_size + item_incurred_increase }
          else t
        distribute_space_up_to_limits affected fuel
          (space_to_distribute - item_incurred_increase * (g.length : ℚ)) tracks2
    else (space_to_distribute, tracks)

theorem foldl_min_le_init (xs : List ℚ) (a : ℚ) : xs.foldl Min.min a ≤ a := by
  induction xs generalizing a with
  | nil => exact le_rfl
  | cons y ys ih =>
    simp only [List.foldl_cons]
    exact le_trans (ih (Min.min a y)) (min_le_left _ _)

theorem foldl_min_le_mem {xs : List ℚ} {x : ℚ} (hx : x ∈ xs) (a : ℚ) :
    xs.foldl Min.min a ≤ x := by
  induction xs generalizing a with
  | nil => cases hx
  | cons y ys ih =>
    simp only [List.foldl_cons]
    rcases List.mem_cons.mp hx with h | h
    · subst h
      exact le_trans (foldl_min_le_init ys _) (min_le_right _ _)
    · exact ih h _

theorem foldl_min_mem (xs : List ℚ) (a : ℚ) : xs.foldl Min.min a ∈ a :: xs := by
  induction xs generalizing a with
  | nil => simp
  | cons y ys ih =>
    simp only [List.foldl_cons]
    have h := ih (Min.min a y)
    rcases List.mem_cons.mp h with h' | h'
    · rcases min_choice a y with hm | hm
      · rw [h', hm]; exact List.mem_cons_self _ _
      · rw [h', hm]
        exact List.mem_cons_of_mem _ (List.mem_cons_self _ _)
    · exact List.mem_cons_of_mem _ (List.mem_cons_of_mem _ h')

/-- `reduceMin` is a lower bound of every member of the list. -/
theorem reduceMin_le {l : List ℚ} {x : ℚ} (hx : x ∈ l) : reduceMin l ≤ x := by
  match l with
  | a :: xs =>
    rw [reduceMin]
    rcases List.mem_cons.mp hx with h | h
    · subst h; exact foldl_min_le_init xs x
    · exact foldl_min_le_mem h a

/-- On a nonempty list, `reduceMin` is attained by some member. -/
theorem reduceMin_mem {l : List ℚ} (hl : l ≠ []) : reduceMin l ∈ l := by
  match l with
  | a :: xs =>
    rw [reduceMin]
    exact foldl_min_mem xs a

/-- The per-iteration `item_incurred_increase` of the distribution loop. -/
def stepIncrease (affected : GridTrack → Bool) (space : ℚ) (tracks : List GridTrack) : ℚ :=
  Min.min
    (reduceMin ((tracks.filter (growable affected)).map fun t => t.growth_limit - t.base_size))
    (space / (((tracks.filter (growable affected)).length : ℚ)))

/-- The per-iteration track update of the distribution loop. -/
def stepUpdate (affected : GridTrack → Bool) (space : ℚ) (tracks : List GridTrack) :
    List GridTrack :=
  tracks.map fun t =>
    if growable affected t then
      { t with base_size := t.base_size + stepIncrease affected space tracks }
    else t

theorem dsutl_stop (affected : GridTrack → Bool) (f : ℕ) (space : ℚ)
    (tracks : List GridTrack) (hθ : ¬ space > THRESHOLD) :
    distribute_space_up_to_limits affected (f + 1) space tracks = (space, tracks) := by
  rw [distribute_space_up_to_limits, if_neg hθ]

theorem dsutl_nogrow (affected : GridTrack → Bool) (f : ℕ) (space : ℚ)
    (tracks : List GridTrack) (hg : (tracks.filter (growable affected)).length = 0) :
    distribute_space_up_to_limits affected (f + 1) space tracks = (space, tracks) := by
  rw [distribute_space_up_to_limits]
  by_cases hθ : space > THRESHOLD
  · rw [if_pos hθ]
    simp only
    rw [if_pos hg]
  · rw [if_neg hθ]

theorem dsutl_step (affected : GridTrack → Bool) (f : ℕ) (space : ℚ)
    (tracks : List GridTrack) (hθ : space > THRESHOLD)
    (hg : (tracks.filter (growable affected)).length ≠ 0) :
    distribute_space_up_to_limits affected (f + 1) space tracks
      = distribute_space_up_to_limits affected f
          (space - stepIncrease affected space tracks
            * ((tracks.filter (growable affected)).length : ℚ))
          (stepUpdate affected space tracks) := by
  rw [distribute_space_up_to_limits, if_pos hθ]
  simp only
  rw [if_neg hg]
  rfl

theorem length_filter_map_le {α : Type} (p : α → Bool) (upd : α → α)
    (h1 : ∀ t, p (upd t) = true → p t = true) (l : List α) :
    ((l.map upd).filter p).length ≤ (l.filter p).length := by
  induction l with
  | nil => simp
  | cons t ts ih =>
    simp only [List.map_cons, List.filter_cons]
    by_cases hu : p (upd t)
    · rw [if_pos hu, if_pos (h1 t hu)]
      simpa using Nat.succ_le_succ ih
    · rw [if_neg hu]
      by_cases ht : p t
      · rw [if_pos ht]
        simp only [List.length_cons]
        omega
      · rw [if_neg ht]
        exact ih

theorem length_filter_map_lt {α : Type} (p : α → Bool) (upd : α → α)
    (h1 : ∀ t, p (upd t) = true → p t = true) (l : List α) (t0 : α)
    (ht0 : t0 ∈ l) (hp : p t0 = true) (hnp : p (upd t0) = false) :
    ((l.map upd).filter p).length < (l.filter p).length := by
  induction l with
  | nil => cases ht0
  | cons t ts ih =>
    simp only [List.map_cons, List.filter_cons]
    rcases List.mem_cons.mp ht0 with h | h
    · subst h
      rw [if_neg (by simp [hnp]), if_pos hp]
      simp only [List.length_cons]
      exact Nat.lt_succ_of_le (length_filter_map_le p upd h1 ts)
    · by_cases hu : p (upd t)
      · rw [if_pos hu, if_pos (h1 t hu)]
        simp only [List.length_cons]
        exact Nat.succ_lt_succ (ih h)
      · rw [if_neg hu]
        by_cases ht : p t
        · rw [if_pos ht]
          simp only [List.length_cons]
          exact Nat.lt_succ_of_le (Nat.le_of_lt (ih h))
        · rw [if_neg ht]
          exact ih h

/-- One distribution step never pushes a track's base size above its
growth limit: the increase is capped by the least remaining slack. -/
theorem stepUpdate_inv (affected : GridTrack → Bool) (space : ℚ) (tracks : List GridTrack)
    (hinv : ∀ t ∈ tracks, t.base_size ≤ t.growth_limit) :
    ∀ t ∈ stepUpdate affected space tracks, t.base_size ≤ t.growth_limit := by
  intro t2 ht2
  obtain ⟨t, ht, rfl⟩ := List.mem_map.mp ht2
  by_cases hgrow : growable affected t
  · rw [if_pos hgrow]
    simp only
    have hslack : stepIncrease affected space tracks ≤ t.growth_limit - t.base_size := by
      refine le_trans (min_le_left _ _) (reduceMin_le ?_)
      exact List.mem_map_of_mem _ (List.mem_filter.mpr ⟨ht, hgrow⟩)
    linarith
  · rw [if_neg hgrow]
    exact hinv t ht

/-- The base-size/growth-limit invariant holds after any number of
iterations of the distribution loop. -/
theorem dsutl_inv (affected : GridTrack → Bool) :
    ∀ (fuel : ℕ) (space : ℚ) (tracks : List GridTrack),
      (∀ t ∈ tracks, t.base_size ≤ t.growth_limit) →
      ∀ t ∈ (distribute_space_up_to_limits affected fuel space tracks).2,
        t.base_size ≤ t.growth_limit := by
  intro fuel
  induction fuel with
  | zero =>
    intro space tracks hinv
    exact hinv
  | succ f ih =>
    intro space tracks hinv
    by_cases hθ : space > THRESHOLD
    · by_cases hg : (tracks.filter (growable affected)).length = 0
      · rw [dsutl_nogrow affected f space tracks hg]
        exact hinv
      · rw [dsutl_step affected f space tracks hθ hg]
        exact ih _ _ (stepUpdate_inv affected space tracks hinv)
    · rw [dsutl_stop affected f space tracks hθ]
      exact hinv

/-- Core induction for the distribution loop: if at most `c` tracks are
growable then `c + 1` units of fuel suffice — the result is independent of
any further fuel, and the loop guard is false on the resulting state. -/
theorem dsutl_spec (affected : GridTrack → Bool) (c : ℕ) :
    ∀ (space : ℚ) (tracks : List GridTrack),
      (tracks.filter (growable affected)).length ≤ c →
      0 ≤ space →
      (∀ t ∈ tracks, t.base_size ≤ t.growth_limit) →
      ∀ fuel, c < fuel →
        distribute_space_up_to_limits affected fuel space tracks
          = distribute_space_up_to_limits affected (c + 1) space tracks
        ∧ ((distribute_space_up_to_limits affected fuel space tracks).1 ≤ THRESHOLD
            ∨ ((distribute_space_up_to_limits affected fuel space tracks).2.filter
                (growable affected)).length = 0) := by
  induction c with
  | zero =>
    intro space tracks hcount hsp hinv fuel hfuel
    obtain ⟨f0, rfl⟩ : ∃ f0, fuel = f0 + 1 := ⟨fuel - 1, by omega⟩
    have hcnt0 : (tracks.filter (growable affected)).length = 0 := by omega
    rw [dsutl_nogrow affected f0 space tracks hcnt0,
      dsutl_nogrow affected 0 space tracks hcnt0]
    exact ⟨rfl, Or.inr hcnt0⟩
  | succ c ih =>
    intro space tracks hcount hsp hinv fuel hfuel
    obtain ⟨f0, rfl⟩ : ∃ f0, fuel = f0 + 1 := ⟨fuel - 1, by omega⟩
    by_cases hθ : space > THRESHOLD
    · by_cases hg : (tracks.filter (growable affected)).length = 0
      · rw [dsutl_nogrow affected f0 space tracks hg,
          dsutl_nogrow affected (c + 1) space tracks hg]
        exact ⟨rfl, Or.inr hg⟩
      · have hn : 0 < (tracks.filter (growable affected)).length := Nat.pos_of_ne_zero hg
        have hnq : (0 : ℚ) < ((tracks.filter (growable affected)).length : ℚ) := by
          exact_mod_cast hn
        have hstepL := dsutl_step affected f0 space tracks hθ hg
        have hstepR := dsutl_step affected (c + 1) space tracks hθ hg
        have hinv2 := stepUpdate_inv affected space tracks hinv
        rcases le_or_lt (space / ((tracks.filter (growable affected)).length : ℚ))
            (reduceMin ((tracks.filter (growable affected)).map
              fun t => t.growth_limit - t.base_size)) with hcase | hcase
        · have hinc : stepIncrease affected space tracks
              = space / ((tracks.filter (growable affected)).length : ℚ) :=
            min_eq_right hcase
          have hsp0 : space - stepIncrease affected space tracks
              * ((tracks.filter (growable affected)).length : ℚ) = 0 := by
            rw [hinc]
            field_simp
          rw [hstepL, hstepR, hsp0]
          have hf0 : 1 ≤ f0 := by omega
          obtain ⟨f1, rfl⟩ : ∃ f1, f0 = f1 + 1 := ⟨f0 - 1, by omega⟩
          have hθ0 : ¬ (0 : ℚ) > THRESHOLD := by norm_num [THRESHOLD]
          rw [dsutl_stop affected f1 0 _ hθ0, dsutl_stop affected c 0 _ hθ0]
          exact ⟨rfl, Or.inl (by norm_num [THRESHOLD])⟩
        · have hinc : stepIncrease affected space tracks
              = reduceMin ((tracks.filter (growable affected)).map
                  fun t => t.growth_limit - t.base_size) :=
            min_eq_left hcase.le
          have hgne : tracks.filter (growable affected) ≠ [] := by
            intro h
            rw [h] at hg
            simp at hg
          have hmapne : ((tracks.filter (growable affected)).map
              fun t => t.growth_limit - t.base_size) ≠ [] := by
            simpa using hgne
          obtain ⟨t0, ht0g, ht0eq⟩ := List.mem_map.mp (reduceMin_mem hmapne)
          obtain ⟨ht0mem, ht0grow⟩ := List.mem_filter.mp ht0g
          have himp : ∀ t, growable affected
              (if growable affected t then
                { t with base_size := t.base_size + stepIncrease affected space tracks }
              else t) = true → growable affected t = true := by
            intro t hh
            by_cases h : growable affected t
            · exact h
            · rw [if_neg h] at hh
              exact hh
          have hupd : growable affected
              (if growable affected t0 then
                { t0 with base_size := t0.base_size + stepIncrease affected space tracks }
              else t0) = false := by
            rw [if_pos ht0grow]
            have : t0.base_size + stepIncrease affected space tracks = t0.growth_limit := by
              rw [hinc, ← ht0eq]
              ring
            simp only [growable]
            simp [this]
          have hlt := length_filter_map_lt (growable affected) _ himp tracks t0 ht0mem
            ht0grow hupd
          have hcount2 : ((stepUpdate affected space tracks).filter
              (growable affected)).length ≤ c := by
            have : ((stepUpdate affected space tracks).filter (growable affected)).length
                < (tracks.filter (growable affected)).length := hlt
            omega
          have hsp2 : 0 ≤ space - stepIncrease affected space tracks
              * ((tracks.filter (growable affected)).length : ℚ) := by
            have hlt2 : (reduceMin ((tracks.filter (growable affected)).map
                fun t => t.growth_limit - t.base_size))
                * ((tracks.filter (growable affected)).length : ℚ) < space := by
              exact (lt_div_iff₀ hnq).mp hcase
            rw [hinc]
            linarith
          have IHf := ih _ _ hcount2 hsp2 hinv2 f0 (by omega)
          have IHc := ih _ _ hcount2 hsp2 hinv2 (c + 1) (by omega)
          rw [hstepL, hstepR]
          exact ⟨IHf.1.trans IHc.1.symm, IHf.2⟩
    · rw [dsutl_stop affected f0 space tracks hθ, dsutl_stop affected (c + 1) space tracks hθ]
      exact ⟨rfl, Or.inl (le_of_not_lt hθ)⟩

/-- Claim C10: for every finite non-negative `space_to_distribute` and
every finite slice of tracks whose growth limits are at least their base
sizes, the distribution loop of `distribute_space_up_to_limits`
terminates: `tracks.len() + 1` iterations always suffice (running the
loop with any larger fuel yields the same state, and after
`tracks.len() + 1` iterations the loop guard is false — the remaining
space is at most the `1e-6` threshold or no affected track can still
grow), and no iteration ever raises a `base_size` above its
`growth_limit`. -/
theorem distribute_space_up_to_limits_terminates (affected : GridTrack → Bool)
    (space : ℚ) (tracks : List GridTrack)
    (hspace : 0 ≤ space)
    (hinv : ∀ t ∈ tracks, t.base_size ≤ t.growth_limit) :
    (∀ fuel, tracks.length < fuel →
      distribute_space_up_to_limits affected fuel space tracks
        = distribute_space_up_to_limits affected (tracks.length + 1) space tracks)
    ∧ ((distribute_space_up_to_limits affected (tracks.length + 1) space tracks).1
          ≤ THRESHOLD
        ∨ ((distribute_space_up_to_limits affected (tracks.length + 1) space
            tracks).2.filter (growable affected)).length = 0)
    ∧ (∀ fuel, ∀ t ∈ (distribute_space_up_to_limits affected fuel space tracks).2,
        t.base_size ≤ t.growth_limit) := by
  have hcount : (tracks.filter (growable affected)).length ≤ tracks.length :=
    List.length_filter_le _ _
  refine ⟨?_, ?_, ?_⟩
  · intro fuel hfuel
    exact (dsutl_spec affected tracks.length space tracks hcount hspace hinv fuel hfuel).1
  · exact (dsutl_spec affected tracks.length space tracks hcount hspace hinv
      (tracks.length + 1) (by omega)).2
  · intro fuel
    exact dsutl_inv affected fuel space tracks hinv

/-- Witness for claim C10 at a concrete input: two affected tracks with
base size `0` and growth limit `4`, distributing `10` units of space. -/
theorem distribute_space_up_to_limits_terminates_witness :
    (0 : ℚ) ≤ 10
    ∧ (∀ t ∈ [GridTrack.mk 0 4, GridTrack.mk 0 4], t.base_size ≤ t.growth_limit)
    ∧ ((∀ fuel, ([GridTrack.mk 0 4, GridTrack.mk 0 4] : List GridTrack).length < fuel →
        distribute_space_up_to_limits (fun _ => true) fuel 10 [GridTrack.mk 0 4, GridTrack.mk 0 4]
          = distribute_space_up_to_limits (fun _ => true)
              (([GridTrack.mk 0 4, GridTrack.mk 0 4] : List GridTrack).length + 1) 10
              [GridTrack.mk 0 4, GridTrack.mk 0 4])
      ∧ ((distribute_space_up_to_limits (fun _ => true)
            (([GridTrack.mk 0 4, GridTrack.mk 0 4] : List GridTrack).length + 1) 10
            [GridTrack.mk 0 4, GridTrack.mk 0 4]).1 ≤ THRESHOLD
        ∨ ((distribute_space_up_to_limits (fun _ => true)
            (([GridTrack.mk 0 4, GridTrack.mk 0 4] : List GridTrack).length + 1) 10
            [GridTrack.mk 0 4, GridTrack.mk 0 4]).2.filter
              (growable (fun _ => true))).length = 0)
      ∧ (∀ fuel, ∀ t ∈ (distribute_space_up_to_limits (fun _ => true) fuel 10
            [GridTrack.mk 0 4, GridTrack.mk 0 4]).2,
          t.base_size ≤ t.growth_limit)) :=
  ⟨by norm_num,
   by decide,
   distribute_space_up_to_limits_terminates (fun _ => true) 10
     [GridTrack.mk 0 4, GridTrack.mk 0 4] (by norm_num) (by decide)⟩

/-! ## Layout-input enums and the per-node cache
(src/src/compute/taffy_tree.rs, src/src/style/dimension.rs) -/

/-- `AvailableSpace` (src/src/style/dimension.rs lines 349–356). -/
inductive AvailableSpace where
  | definite (v : ℚ)
  | minContent
  | maxContent
deriving Repr, DecidableEq

/-- `AvailableSpace::into_option` (lines 380–385). -/
def AvailableSpace.into_option : AvailableSpace → Option ℚ
  | .definite v => some v
  | _ => none

/-- `RunMode` as used by src/src/compute/taffy_tree.rs.  The first variant
keeps the source's spelling `PeformLayout` (sic). -/
inductive RunMode where
  | peformLayout
  | computeSize
deriving Repr, DecidableEq

/-- `SizingMode` (`InherentSize` / `ContentSize`). -/
inductive SizingMode where
  | inherentSize
  | contentSize
deriving Repr, DecidableEq

/-- `SizeAndBaselines`: the `LayoutOutput` record cached per node —
a size plus optional first baselines. -/
structure SizeAndBaselines where
  size : Size ℚ
  first_baselines : Point (Option ℚ)
deriving Repr, DecidableEq

/-- One cache entry: the key components that the callers in
src/src/compute/taffy_tree.rs pass to `Cache::get`/`Cache::store`
(lines 87–88 and 179), together with the stored output. -/
structure CacheEntry where
  known_dimensions : Size (Option ℚ)
  available_space : Size AvailableSpace
  run_mode : RunMode
  output : SizeAndBaselines
deriving Repr, DecidableEq

/-- `AvailableSpace::is_roughly_equal` (src/src/style/dimension.rs lines
446–454): definite values compare with tolerance `|a − b| < f32::EPSILON`
(`2⁻²³`), constraints compare by variant. -/
def AvailableSpace.is_roughly_equal : AvailableSpace → AvailableSpace → Bool
  | .definite a, .definite b => decide (|a - b| < (1 : ℚ) / 8388608)
  | .minContent, .minContent => true
  | .maxContent, .maxContent => true
  | _, _ => false

/-- The variant ("kind") of an `AvailableSpace` constraint. -/
inductive ASKind where
  | definite
  | minContent
  | maxContent
deriving Repr, DecidableEq

/-- The kind of an available-space value, forgetting any definite
magnitude. -/
def AvailableSpace.kind : AvailableSpace → ASKind
  | .definite _ => ASKind.definite
  | .minContent => ASKind.minContent
  | .maxContent => ASKind.maxContent

/-- Modelled from the spec: the "constraint kind" of a cache key — which
axes of the known dimensions are definite, and the kind of the
available-space constraint on each axis.  The spec bounds a node's cache
by "one per distinct `run_mode` × constraint-kind", and this is the
finite datum that distinguishes constraint kinds. -/
structure ConstraintKind where
  known_width : Bool
  known_height : Bool
  avail_width : ASKind
  avail_height : ASKind
deriving Repr, DecidableEq

/-- The constraint kind of a `(known_dimensions, available_space)` pair. -/
def constraintKind (known_dimensions : Size (Option ℚ))
    (available_space : Size AvailableSpace) : ConstraintKind :=
  { known_width := known_dimensions.width.isSome
    known_height := known_dimensions.height.isSome
    avail_width := available_space.width.kind
    avail_height := available_space.height.kind }

/-- Modelled from the spec: whether a stored entry matches a query.  Per
the spec's cache-entry contract the key is the components the in-src
callers pass — `known_dimensions`, `available_space`, `run_mode`
(src/src/compute/taffy_tree.rs lines 87–88/179 pass nothing else, so no
cache implementation could key on `parent_size` or `sizing_mode`) — and
"an entry with definite known dimensions matches any query with the same
definite values regardless of available space", read per axis: the
available space is compared (with `is_roughly_equal`, the spec's
ε-tolerant equality) only on axes whose known dimension is indefinite. -/
def CacheEntry.matches (e : CacheEntry) (known_dimensions : Size (Option ℚ))
    (available_space : Size AvailableSpace) (run_mode : RunMode) : Bool :=
  decide (e.known_dimensions = known_dimensions)
    && (e.known_dimensions.width.isSome
        || e.available_space.width.is_roughly_equal available_space.width)
    && (e.known_dimensions.height.isSome
        || e.available_space.height.is_roughly_equal available_space.height)
    && decide (e.run_mode = run_mode)

/-- Modelled from the spec: the `Cache` type itself is not under `src/`
(only its callers are).  Per the spec's data model a node's cache is a
small bounded set of entries storing the produced `LayoutOutput`, one per
distinct `run_mode` × constraint-kind. -/
structure Cache where
  entries : List CacheEntry
deriving Repr, DecidableEq

/-- The empty cache (a node's cache is initialized empty). -/
def Cache.empty : Cache := ⟨[]⟩

/-- Modelled from the spec: `Cache::get` returns the first stored entry
matching the query per `CacheEntry.matches`. -/
def Cache.get (cache : Cache) (known_dimensions : Size (Option ℚ))
    (available_space : Size AvailableSpace) (run_mode : RunMode) :
    Option SizeAndBaselines :=
  (cache.entries.find? fun e =>
      e.matches known_dimensions available_space run_mode).map
    (fun e => e.output)

/-- Modelled from the spec: `Cache::store` records the produced output
under the key components passed by the caller, keeping one entry per
distinct `run_mode` × constraint-kind (the new entry replaces any
previous entry of the same kind, so the set stays bounded by the finite
number of kinds). -/
def Cache.store (cache : Cache) (known_dimensions : Size (Option ℚ))
    (available_space : Size AvailableSpace) (run_mode : RunMode)
    (output : SizeAndBaselines) : Cache :=
  ⟨{ known_dimensions := known_dimensions, available_space := available_space
     run_mode := run_mode, output := output }
    :: cache.entries.filter fun e =>
      !(decide (e.run_mode = run_mode)
        && decide (constraintKind e.known_dimensions e.available_space
            = constraintKind known_dimensions available_space))⟩

/-- `compute_node_layout` (src/src/compute/taffy_tree.rs lines 68–187),
restricted to the caching skeleton that claims C1/C9 are about.  The
dispatch body (lines 102–176: `perform_computations::<Algorithm>` for
Hidden/Flexbox/Grid, or the leaf measurement) depends on the node's style
and on tree recursion; it is abstracted as the `algorithm` argument, so
every theorem below holds for every possible algorithm result.  The
caching behaviour is exact:

```
let cache_run_mode = if !has_children { RunMode::PeformLayout } else { run_mode };
if let Some(cached) = cache.get(known_dimensions, available_space, cache_run_mode) {
    return cached;
}
let computed = ...;  // dispatch on (display, has_children)
cache.store(known_dimensions, available_space, cache_run_mode, computed);
computed
```
-/
def compute_node_layout (has_children : Bool) (cache : Cache)
    (algorithm : Size (Option ℚ) → Size (Option ℚ) → Size AvailableSpace → RunMode →
      SizingMode → SizeAndBaselines)
    (known_dimensions : Size (Option ℚ)) (parent_size : Size (Option ℚ))
    (available_space : Size AvailableSpace) (run_mode : RunMode)
    (sizing_mode : SizingMode) : SizeAndBaselines × Cache :=
  let cache_run_mode := if !has_children then RunMode.peformLayout else run_mode
  match cache.get known_dimensions available_space cache_run_mode with
  | some cached => (cached, cache)
  | none =>
    let computed := algorithm known_dimensions parent_size available_space run_mode sizing_mode
    (computed, cache.store known_dimensions available_space cache_run_mode computed)

/-- Rough equality of available space is reflexive. -/
theorem AvailableSpace.is_roughly_equal_self (a : AvailableSpace) :
    a.is_roughly_equal a = true := by
  cases a with
  | definite v =>
    simp only [AvailableSpace.is_roughly_equal, decide_eq_true_eq, sub_self, abs_zero]
    norm_num
  | minContent => rfl
  | maxContent => rfl

/-- Looking a key up in a cache holding exactly one stored entry succeeds
precisely when the stored entry matches the query per the spec's rule:
equal known dimensions, equal (coerced) run mode, and roughly-equal
available space on every axis whose known dimension is indefinite. -/
theorem Cache.get_store_empty (kd : Size (Option ℚ)) (asp : Size AvailableSpace)
    (rm : RunMode) (out : SizeAndBaselines) (kd2 : Size (Option ℚ))
    (asp2 : Size AvailableSpace) (rm2 : RunMode) :
    (Cache.empty.store kd asp rm out).get kd2 asp2 rm2
      = if kd2 = kd ∧ rm2 = rm
            ∧ (kd.width.isSome || asp.width.is_roughly_equal asp2.width) = true
            ∧ (kd.height.isSome || asp.height.is_roughly_equal asp2.height) = true
        then some out else none := by
  simp only [Cache.get, Cache.store, Cache.empty, List.filter_nil, List.find?]
  by_cases hc : kd2 = kd ∧ rm2 = rm
      ∧ (kd.width.isSome || asp.width.is_roughly_equal asp2.width) = true
      ∧ (kd.height.isSome || asp.height.is_roughly_equal asp2.height) = true
  · obtain ⟨h1, h2, h3, h4⟩ := hc
    subst h1
    subst h2
    simp [CacheEntry.matches, h3, h4]
  · have hm : CacheEntry.matches
        { known_dimensions := kd, available_space := asp, run_mode := rm, output := out }
        kd2 asp2 rm2 = false := by
      by_contra hne
      rw [Bool.not_eq_false] at hne
      apply hc
      simp only [CacheEntry.matches, Bool.and_eq_true, decide_eq_true_eq] at hne
      obtain ⟨⟨⟨hkd, hbw⟩, hbh⟩, hrm⟩ := hne
      exact ⟨hkd.symm, hrm.symm, hbw, hbh⟩
    simp only [List.find?, hm, Option.map_none']
    rw [if_neg hc]

/-- Claim C1 (amended): the per-node memoization key consists of the
components the callers pass — `known_dimensions`, `available_space` and
the run mode (coerced to `PerformLayout` for childless nodes); neither
`parent_size` nor `sizing_mode` plays any part.  After a first
`compute_node_layout` call populates the empty cache, a later cache query
returns the stored `LayoutOutput` if and only if the query's
`known_dimensions` and (coerced) run mode equal the stored ones and, on
each axis whose stored known dimension is indefinite, the query's
available space is roughly equal to the stored one — an entry with
definite known dimensions matches regardless of available space on that
axis. -/
theorem compute_node_layout_cache_key (has_children : Bool)
    (algorithm : Size (Option ℚ) → Size (Option ℚ) → Size AvailableSpace → RunMode →
      SizingMode → SizeAndBaselines)
    (kd ps : Size (Option ℚ)) (asp : Size AvailableSpace) (rm : RunMode) (sm : SizingMode)
    (kd2 : Size (Option ℚ)) (asp2 : Size AvailableSpace) (rm2 : RunMode) :
    (compute_node_layout has_children Cache.empty algorithm kd ps asp rm sm).2.get kd2 asp2 rm2
      = if kd2 = kd
            ∧ rm2 = (if !has_children then RunMode.peformLayout else rm)
            ∧ (kd.width.isSome || asp.width.is_roughly_equal asp2.width) = true
            ∧ (kd.height.isSome || asp.height.is_roughly_equal asp2.height) = true
        then some (compute_node_layout has_children Cache.empty algorithm kd ps asp rm sm).1
        else none := by
  have hmiss : Cache.empty.get kd asp (if !has_children then RunMode.peformLayout else rm)
      = none := rfl
  simp only [compute_node_layout, hmiss]
  exact Cache.get_store_empty kd asp _ _ kd2 asp2 rm2

/-- The concrete algorithm used in the C1 counterexample: it reports the
parent size as the node's own size (so recomputation under a different
`parent_size` would give a different output). -/
def c1_algorithm : Size (Option ℚ) → Size (Option ℚ) → Size AvailableSpace → RunMode →
    SizingMode → SizeAndBaselines :=
  fun _ parent_size _ _ _ =>
    { size := { width := parent_size.width.getD 0, height := parent_size.height.getD 0 }
      first_baselines := { x := none, y := none } }

/-- Claim C1 (counterexample): two `compute_node_layout` queries that
differ **only** in `parent_size` (first call with parent size 100×100,
second with 50×50; identical `known_dimensions`, `available_space`,
`run_mode` and `sizing_mode`) are served from the same cache entry: the
second call returns the stored output of the first even though running
the algorithm at the second input would produce a different output.
This refutes the claim that the cache key includes `parent_size`. -/
theorem compute_node_layout_parent_size_not_keyed :
    (compute_node_layout true
        (compute_node_layout true Cache.empty c1_algorithm
          { width := none, height := none } { width := some 100, height := some 100 }
          { width := .definite 200, height := .definite 200 } .peformLayout .inherentSize).2
        c1_algorithm
        { width := none, height := none } { width := some 50, height := some 50 }
        { width := .definite 200, height := .definite 200 } .peformLayout .inherentSize).1
      = (compute_node_layout true Cache.empty c1_algorithm
          { width := none, height := none } { width := some 100, height := some 100 }
          { width := .definite 200, height := .definite 200 } .peformLayout .inherentSize).1
    ∧ (compute_node_layout true Cache.empty c1_algorithm
          { width := none, height := none } { width := some 100, height := some 100 }
          { width := .definite 200, height := .definite 200 } .peformLayout .inherentSize).1
        ≠ c1_algorithm
            { width := none, height := none } { width := some 50, height := some 50 }
            { width := .definite 200, height := .definite 200 } .peformLayout .inherentSize := by
  constructor
  · norm_num [compute_node_layout, Cache.get, Cache.store, Cache.empty, CacheEntry.matches,
      AvailableSpace.is_roughly_equal, List.find?, List.filter, c1_algorithm, constraintKind,
      AvailableSpace.kind]
  · norm_num [compute_node_layout, Cache.get, Cache.store, Cache.empty, CacheEntry.matches,
      AvailableSpace.is_roughly_equal, List.find?, List.filter, c1_algorithm, constraintKind,
      AvailableSpace.kind, SizeAndBaselines.mk.injEq, Size.mk.injEq]

/-- Claim C9: for a childless node both `ComputeSize` and `PerformLayout`
queries are looked up and stored under the `PerformLayout` key
(`cache_run_mode` coercion at src/src/compute/taffy_tree.rs line 86), so
a result cached by a call in one run mode is returned unchanged — with
the cache untouched — by a later call in any run mode with the same
`known_dimensions` and `available_space`. -/
theorem compute_node_layout_childless_run_mode_shared
    (algorithm : Size (Option ℚ) → Size (Option ℚ) → Size AvailableSpace → RunMode →
      SizingMode → SizeAndBaselines)
    (kd ps1 ps2 : Size (Option ℚ)) (asp : Size AvailableSpace)
    (rm1 rm2 : RunMode) (sm1 sm2 : SizingMode) :
    compute_node_layout false
        (compute_node_layout false Cache.empty algorithm kd ps1 asp rm1 sm1).2
        algorithm kd ps2 asp rm2 sm2
      = ((compute_node_layout false Cache.empty algorithm kd ps1 asp rm1 sm1).1,
         (compute_node_layout false Cache.empty algorithm kd ps1 asp rm1 sm1).2) := by
  have h0 : ∀ rm : RunMode, Cache.empty.get kd asp rm = none := fun _ => rfl
  have hget : (Cache.empty.store kd asp RunMode.peformLayout
      (algorithm kd ps1 asp rm1 sm1)).get kd asp RunMode.peformLayout
      = some (algorithm kd ps1 asp rm1 sm1) := by
    rw [Cache.get_store_empty]
    rw [if_pos ⟨rfl, rfl, by simp [AvailableSpace.is_roughly_equal_self],
      by simp [AvailableSpace.is_roughly_equal_self]⟩]
  simp [compute_node_layout, h0, hget]

/-! ## Dirty propagation (src/src/tree/taffy_tree/tree.rs,
`Taffy::set_style` lines 523–528 and `Taffy::mark_dirty` lines 545–562) -/

/-- The slot-map state of the `Taffy` tree that `set_style`/`mark_dirty`
touch: per-node style, per-node cache (inside `NodeData`), and the
parent pointer of each node.  Slot-map keys are modelled as `ℕ`; the
style type is an arbitrary `σ`. -/
structure TaffyTree (σ : Type) where
  styles : ℕ → σ
  caches : ℕ → Cache
  parents : ℕ → Option ℕ

/-- Modelled from the spec: `NodeData::mark_dirty` is not under `src/`;
per the spec's lifecycle ("A style mutation marks the node and every
ancestor dirty, clearing their caches") marking a node dirty clears that
node's cache.  (`Taffy::dirty` indeed reports `cache.is_empty()`,
tree.rs line 566.) -/
def mark_dirty_node {σ : Type} (f : TaffyTree σ) (k : ℕ) : TaffyTree σ :=
  { f with caches := fun m => if m = k then Cache.empty else f.caches m }

/-- `mark_dirty_recursive` (tree.rs lines 547–557): mark the node dirty,
then recurse on its parent (if any).  The source recursion is bounded
only by the height of the parent chain; `fuel` makes it structural, and
the theorem below assumes the chain ends within `fuel` steps (the source
itself warns it stack-overflows on a cyclic tree). -/
def mark_dirty_recursive {σ : Type} : ℕ → TaffyTree σ → ℕ → TaffyTree σ
  | 0, f, k => mark_dirty_node f k
  | fuel + 1, f, k =>
    let f2 := mark_dirty_node f k
    match f.parents k with
    | some p => mark_dirty_recursive fuel f2 p
    | none => f2

/-- `Taffy::mark_dirty` (tree.rs lines 545–562). -/
def mark_dirty {σ : Type} (fuel : ℕ) (f : TaffyTree σ) (node : ℕ) : TaffyTree σ :=
  mark_dirty_recursive fuel f node

/-- `Taffy::set_style` (tree.rs lines 523–528): store the style, then
`mark_dirty`. -/
def set_style {σ : Type} (fuel : ℕ) (f : TaffyTree σ) (node : ℕ) (style : σ) :
    TaffyTree σ :=
  mark_dirty fuel { f with styles := fun m => if m = node then style else f.styles m } node

/-- Iterating the parent pointer `s` times from `k` (`none` when the
chain ends earlier). -/
def parentIter (parents : ℕ → Option ℕ) : ℕ → ℕ → Option ℕ
  | 0, k => some k
  | s + 1, k =>
    match parents k with
    | some p => parentIter parents s p
    | none => none

/-- `m` is `n` itself or an ancestor of `n` under the given parent map. -/
def IsSelfOrAncestor (parents : ℕ → Option ℕ) (m n : ℕ) : Prop :=
  ∃ s, parentIter parents s n = some m

/-- The parent chain starting at `k` reaches a root within `fuel` steps
(this is the acyclicity assumption under which the source recursion
terminates). -/
def chainEnds (parents : ℕ → Option ℕ) : ℕ → ℕ → Prop
  | 0, k => parents k = none
  | fuel + 1, k => parents k = none ∨ ∃ p, parents k = some p ∧ chainEnds parents fuel p

theorem mark_dirty_node_parents {σ : Type} (f : TaffyTree σ) (k : ℕ) :
    (mark_dirty_node f k).parents = f.parents := rfl

theorem selfOrAncestor_of_leaf {parents : ℕ → Option ℕ} {m k : ℕ}
    (hk : parents k = none) : IsSelfOrAncestor parents m k ↔ m = k := by
  constructor
  · rintro ⟨s, hs⟩
    match s with
    | 0 =>
      simp only [parentIter] at hs
      exact (Option.some.injEq _ _ ▸ hs).symm
    | s + 1 =>
      simp only [parentIter, hk] at hs
      exact Option.noConfusion hs
  · rintro rfl
    exact ⟨0, rfl⟩

theorem selfOrAncestor_of_parent {parents : ℕ → Option ℕ} {m k p : ℕ}
    (hk : parents k = some p) :
    IsSelfOrAncestor parents m k ↔ m = k ∨ IsSelfOrAncestor parents m p := by
  constructor
  · rintro ⟨s, hs⟩
    match s with
    | 0 =>
      simp only [parentIter] at hs
      exact Or.inl (Option.some.injEq _ _ ▸ hs).symm
    | s + 1 =>
      simp only [parentIter, hk] at hs
      exact Or.inr ⟨s, hs⟩
  · rintro (rfl | ⟨s, hs⟩)
    · exact ⟨0, rfl⟩
    · refine ⟨s + 1, ?_⟩
      simp only [parentIter, hk]
      exact hs

/-- Effect of `mark_dirty_recursive` on every node's cache: exactly the
start node and its ancestors are cleared; everything else is untouched.
Styles and parents are never modified. -/
theorem mark_dirty_recursive_spec {σ : Type} :
    ∀ (fuel : ℕ) (f : TaffyTree σ) (k : ℕ), chainEnds f.parents fuel k →
      (∀ m, IsSelfOrAncestor f.parents m k →
        (mark_dirty_recursive fuel f k).caches m = Cache.empty)
      ∧ (∀ m, ¬ IsSelfOrAncestor f.parents m k →
        (mark_dirty_recursive fuel f k).caches m = f.caches m)
      ∧ (mark_dirty_recursive fuel f k).styles = f.styles
      ∧ (mark_dirty_recursive fuel f k).parents = f.parents := by
  intro fuel
  induction fuel with
  | zero =>
    intro f k hend
    have hk : f.parents k = none := hend
    refine ⟨?_, ?_, rfl, rfl⟩
    · intro m hm
      have : m = k := (selfOrAncestor_of_leaf hk).mp hm
      simp only [mark_dirty_recursive, mark_dirty_node]
      rw [if_pos this]
    · intro m hm
      have : ¬ m = k := fun h => hm ((selfOrAncestor_of_leaf hk).mpr h)
      simp only [mark_dirty_recursive, mark_dirty_node]
      rw [if_neg this]
  | succ fuel ih =>
    intro f k hend
    rcases hend with hk | ⟨p, hk, hp⟩
    · refine ⟨?_, ?_, ?_, ?_⟩ <;> simp only [mark_dirty_recursive, hk]
      · intro m hm
        have : m = k := (selfOrAncestor_of_leaf hk).mp hm
        simp only [mark_dirty_node]
        rw [if_pos this]
      · intro m hm
        have : ¬ m = k := fun h => hm ((selfOrAncestor_of_leaf hk).mpr h)
        simp only [mark_dirty_node]
        rw [if_neg this]
      · rfl
      · rfl
    · have hp2 : chainEnds (mark_dirty_node f k).parents fuel p := hp
      obtain ⟨ihc, ihu, ihs, ihp⟩ := ih (mark_dirty_node f k) p hp2
      refine ⟨?_, ?_, ?_, ?_⟩ <;> simp only [mark_dirty_recursive, hk]
      · intro m hm
        rcases (selfOrAncestor_of_parent hk).mp hm with rfl | hmp
        · by_cases hmp : IsSelfOrAncestor f.parents m p
          · exact ihc m hmp
          · rw [ihu m hmp]
            simp [mark_dirty_node]
        · exact ihc m hmp
      · intro m hm
        have hmk : ¬ m = k := fun h => hm ((selfOrAncestor_of_parent hk).mpr (Or.inl h))
        have hmp : ¬ IsSelfOrAncestor f.parents m p :=
          fun h => hm ((selfOrAncestor_of_parent hk).mpr (Or.inr h))
        rw [ihu m hmp]
        simp only [mark_dirty_node]
        rw [if_neg hmk]
      · exact ihs
      · exact ihp

/-- Claim C8: dirty propagation is upward-only.  For every node `n`,
`set_style(n, s)` and `mark_dirty(n)` clear the cache of `n` and of every
ancestor of `n`, and leave the cache of every other node — in particular
all descendants and siblings of `n` — unchanged.  (The hypothesis states
that the parent chain from `n` ends within `fuel` steps, which is the
acyclicity condition the source itself requires to terminate.) -/
theorem set_style_mark_dirty_upward_only {σ : Type} (fuel : ℕ) (f : TaffyTree σ)
    (node : ℕ) (style : σ) (hend : chainEnds f.parents fuel node) :
    (∀ m, IsSelfOrAncestor f.parents m node →
      (set_style fuel f node style).caches m = Cache.empty
      ∧ (mark_dirty fuel f node).caches m = Cache.empty)
    ∧ (∀ m, ¬ IsSelfOrAncestor f.parents m node →
      (set_style fuel f node style).caches m = f.caches m
      ∧ (mark_dirty fuel f node).caches m = f.caches m) := by
  have hmd := mark_dirty_recursive_spec fuel f node hend
  have hss := mark_dirty_recursive_spec fuel
    { f with styles := fun m => if m = node then style else f.styles m } node hend
  constructor
  · intro m hm
    exact ⟨hss.1 m hm, hmd.1 m hm⟩
  · intro m hm
    exact ⟨hss.2.1 m hm, hmd.2.1 m hm⟩

/-- The concrete tree for the C8 witness: node 0 is the root, nodes 1 and 2
are siblings under it, node 3 is a child of node 1 (a descendant of the
dirtied node), and every node starts with a nonempty cache. -/
def c8tree : TaffyTree ℕ :=
  { styles := fun _ => 0
    caches := fun _ => Cache.store Cache.empty
      { width := none, height := none }
      { width := .maxContent, height := .maxContent }
      .peformLayout
      { size := { width := 1, height := 1 }, first_baselines := { x := none, y := none } }
    parents := fun n => if n = 1 ∨ n = 2 then some 0 else if n = 3 then some 1 else none }

/-- Witness for claim C8 at the concrete tree `c8tree`, dirtying node 1
with one unit of recursion fuel. -/
theorem set_style_mark_dirty_upward_only_witness :
    chainEnds c8tree.parents 1 1
    ∧ ((∀ m, IsSelfOrAncestor c8tree.parents m 1 →
        (set_style 1 c8tree 1 7).caches m = Cache.empty
        ∧ (mark_dirty 1 c8tree 1).caches m = Cache.empty)
      ∧ (∀ m, ¬ IsSelfOrAncestor c8tree.parents m 1 →
        (set_style 1 c8tree 1 7).caches m = c8tree.caches m
        ∧ (mark_dirty 1 c8tree 1).caches m = c8tree.caches m)) :=
  ⟨Or.inr ⟨0, by simp [c8tree], by simp [c8tree, chainEnds]⟩,
   set_style_mark_dirty_upward_only 1 c8tree 1 7
     (Or.inr ⟨0, by simp [c8tree], by simp [c8tree, chainEnds]⟩)⟩

/-! ## Style types and resolution helpers for the block algorithm
(src/src/style/dimension.rs; helpers of the source's util module, which is
not under src/, are modelled from the spec §4.1) -/

/-- `LengthPercentageAuto` (dimension.rs lines 52–62). -/
inductive LengthPercentageAuto where
  | length (v : ℚ)
  | percent (p : ℚ)
  | calculation (c : CalcNode)
  | auto
deriving Repr

/-- `Dimension` (dimension.rs lines 118–128). -/
inductive Dimension where
  | length (v : ℚ)
  | percent (p : ℚ)
  | calculation (c : CalcNode)
  | auto
deriving Repr

/-- `LengthPercentageAuto::resolve_to_option(context)` (dimension.rs
lines 97–104). -/
def LengthPercentageAuto.resolve_to_option : LengthPercentageAuto → ℚ → Option ℚ
  | .length v, _ => some v
  | .percent p, context => some (context * p)
  | .calculation c, context => some (c.resolve context)
  | .auto, _ => none

/-- Modelled from the spec (§4.1 `resolve`): resolving a
`LengthPercentageAuto` against an optional basis (the util module's
`MaybeResolve` is not under src/) — `Length(v) → Some(v)`,
`Percent(p) × Some(b) → Some(p·b)`, `Percent × None → None`,
`Auto → None`, `Calc` evaluates given a basis. -/
def LengthPercentageAuto.maybe_resolve_opt : LengthPercentageAuto → Option ℚ → Option ℚ
  | .length v, _ => some v
  | .percent p, some b => some (p * b)
  | .percent _, none => none
  | .calculation c, some b => some (c.resolve b)
  | .calculation _, none => none
  | .auto, _ => none

/-- Modelled from the spec (§4.1 `resolve_or_zero`): as `maybe_resolve`
with `None → 0`. -/
def LengthPercentageAuto.resolve_or_zero_opt (lpa : LengthPercentageAuto)
    (basis : Option ℚ) : ℚ :=
  (lpa.maybe_resolve_opt basis).getD 0

/-- Modelled from the spec (§4.1 `resolve`): resolving a
`LengthPercentage` against an optional basis. -/
def LengthPercentage.maybe_resolve_opt : LengthPercentage → Option ℚ → Option ℚ
  | .length v, _ => some v
  | .percent p, some b => some (p * b)
  | .percent _, none => none
  | .calculation c, some b => some (c.resolve b)
  | .calculation _, none => none

/-- Modelled from the spec (§4.1 `resolve_or_zero`) for
`LengthPercentage`. -/
def LengthPercentage.resolve_or_zero_opt (lp : LengthPercentage) (basis : Option ℚ) : ℚ :=
  (lp.maybe_resolve_opt basis).getD 0

/-- Modelled from the spec (§4.1 `resolve`) for `Dimension`. -/
def Dimension.maybe_resolve_opt : Dimension → Option ℚ → Option ℚ
  | .length v, _ => some v
  | .percent p, some b => some (p * b)
  | .percent _, none => none
  | .calculation c, some b => some (c.resolve b)
  | .calculation _, none => none
  | .auto, _ => none

/-- Axis-wise resolution of a `Size<Dimension>` against a
`Size<Option<f32>>` basis. -/
def Size.maybe_resolve (s : Size Dimension) (basis : Size (Option ℚ)) : Size (Option ℚ) :=
  { width := s.width.maybe_resolve_opt basis.width
    height := s.height.maybe_resolve_opt basis.height }

/-- Axis-wise resolution of a `Size<Dimension>` against a definite
`Size<f32>` basis. -/
def Size.maybe_resolve_def (s : Size Dimension) (basis : Size ℚ) : Size (Option ℚ) :=
  { width := s.width.maybe_resolve_opt (some basis.width)
    height := s.height.maybe_resolve_opt (some basis.height) }

/-- Side-wise `resolve_or_zero` of a `Rect<LengthPercentageAuto>`. -/
def Rect.resolve_or_zero_lpa (r : Rect LengthPercentageAuto) (basis : Option ℚ) : Rect ℚ :=
  { left := r.left.resolve_or_zero_opt basis, right := r.right.resolve_or_zero_opt basis
    top := r.top.resolve_or_zero_opt basis, bottom := r.bottom.resolve_or_zero_opt basis }

/-- Side-wise `resolve_or_zero` of a `Rect<LengthPercentage>`. -/
def Rect.resolve_or_zero_lp (r : Rect LengthPercentage) (basis : Option ℚ) : Rect ℚ :=
  { left := r.left.resolve_or_zero_opt basis, right := r.right.resolve_or_zero_opt basis
    top := r.top.resolve_or_zero_opt basis, bottom := r.bottom.resolve_or_zero_opt basis }

/-- Modelled from the spec (§4.1 `apply_aspect_ratio`): fill the missing
axis from the known one, only when exactly one axis is known. -/
def Size.maybe_apply_aspect (s : Size (Option ℚ)) (r : Option ℚ) : Size (Option ℚ) :=
  match r with
  | none => s
  | some r =>
    match s.width, s.height with
    | some w, none => { width := some w, height := some (w / r) }
    | none, some h => { width := some (h * r), height := some h }
    | _, _ => s

/-- Modelled from the spec (§4.1 `maybe_clamp` and invariant 2): clamp
applies the max bound first and the min bound second, so that when
`max < min` the min wins; `None` is "no bound". -/
def maybe_clamp_q (v : ℚ) (mn mx : Option ℚ) : ℚ :=
  let v1 := match mx with
    | some m => Min.min v m
    | none => v
  match mn with
  | some m => Max.max v1 m
  | none => v1

/-- `maybe_clamp` on an optional value. -/
def maybe_clamp_opt (v : Option ℚ) (mn mx : Option ℚ) : Option ℚ :=
  v.map (fun x => maybe_clamp_q x mn mx)

/-- Axis-wise `maybe_clamp` of sizes. -/
def Size.maybe_clamp (s mn mx : Size (Option ℚ)) : Size (Option ℚ) :=
  { width := maybe_clamp_opt s.width mn.width mx.width
    height := maybe_clamp_opt s.height mn.height mx.height }

/-- Modelled from the spec: `Option<f32>::maybe_sub(f32)` subtracts from
a present value. -/
def maybe_sub_opt (v : Option ℚ) (rhs : ℚ) : Option ℚ := v.map (fun x => x - rhs)

/-- Modelled from the spec: `f32::maybe_sub(Option<f32>)` subtracts a
present right-hand side, else is the identity. -/
def maybe_sub_q (v : ℚ) (rhs : Option ℚ) : ℚ := v - rhs.getD 0

/-- `AvailableSpace::maybe_sub`: subtract from a definite value, keep
constraints unchanged (via `map_definite_value`, dimension.rs 428–433). -/
def AvailableSpace.maybe_sub (a : AvailableSpace) (rhs : ℚ) : AvailableSpace :=
  match a with
  | .definite v => .definite (v - rhs)
  | other => other

/-- Axis-wise `Option::or` of sizes. -/
def Size.orFields (s other : Size (Option ℚ)) : Size (Option ℚ) :=
  { width := s.width.or other.width, height := s.height.or other.height }

/-- Axis-wise `unwrap_or` of an optional size against a definite one. -/
def Size.unwrap_or (s : Size (Option ℚ)) (other : Size ℚ) : Size ℚ :=
  { width := s.width.getD other.width, height := s.height.getD other.height }

/-- Pointwise sum of rectangles (`Rect + Rect` in the source). -/
def Rect.add (a b : Rect ℚ) : Rect ℚ :=
  { left := a.left + b.left, right := a.right + b.right
    top := a.top + b.top, bottom := a.bottom + b.bottom }

/-- `Rect::sum_axes`: the horizontal and vertical side sums as a `Size`. -/
def Rect.sum_axes (r : Rect ℚ) : Size ℚ :=
  { width := r.left + r.right, height := r.top + r.bottom }

/-- `Display` per the spec's style contract. -/
inductive Display where
  | block
  | flex
  | grid
  | contents
  | none
deriving Repr, DecidableEq

/-- `Position` (`Relative` / `Absolute`). -/
inductive Position where
  | relative
  | absolute
deriving Repr, DecidableEq

/-- `Overflow` per the spec's style contract. -/
inductive Overflow where
  | visible
  | hidden
  | scroll
deriving Repr, DecidableEq

/-- Modelled from the spec: a node establishes a scroll container unless
its overflow is `Visible` (the `Overflow` impl is not under src/). -/
def Overflow.is_scroll_container : Overflow → Bool
  | .visible => false
  | _ => true

/-- `Point::transpose`: swap the two components (used for scrollbar
gutters, block.rs line 176). -/
def Point.transpose {α : Type} (p : Point α) : Point α := { x := p.y, y := p.x }

/-- Modelled from the spec (§4.5): a collapsible margin set is a
`{positive_max, negative_min}` pair (the `CollapsibleMarginSet` type is
not under src/). -/
structure CollapsibleMarginSet where
  positive : ℚ
  negative : ℚ
deriving Repr, DecidableEq

/-- The empty margin set; resolving it yields `0`. -/
def CollapsibleMarginSet.zero : CollapsibleMarginSet := { positive := 0, negative := 0 }

/-- Modelled from the spec: a set from a single margin. -/
def CollapsibleMarginSet.from_margin (m : ℚ) : CollapsibleMarginSet :=
  if 0 ≤ m then { positive := m, negative := 0 } else { positive := 0, negative := m }

/-- Modelled from the spec: combining is pairwise `max`/`min`. -/
def CollapsibleMarginSet.collapse_with_set (a b : CollapsibleMarginSet) :
    CollapsibleMarginSet :=
  { positive := Max.max a.positive b.positive, negative := Min.min a.negative b.negative }

/-- Modelled from the spec: collapsing a single margin into a set. -/
def CollapsibleMarginSet.collapse_with_margin (s : CollapsibleMarginSet) (m : ℚ) :
    CollapsibleMarginSet :=
  if 0 ≤ m then { positive := Max.max s.positive m, negative := s.negative }
  else { positive := s.positive, negative := Min.min s.negative m }

/-- Modelled from the spec: resolving a set is `positive + negative`. -/
def CollapsibleMarginSet.resolve (s : CollapsibleMarginSet) : ℚ := s.positive + s.negative

/-- `SizeBaselinesAndMargins`: the output record of the block algorithm
(block.rs lines 281–297). -/
structure SizeBaselinesAndMargins where
  size : Size ℚ
  first_baselines : Point (Option ℚ)
  top_margin : CollapsibleMarginSet
  bottom_margin : CollapsibleMarginSet
  margins_can_collapse_through : Bool
deriving Repr, DecidableEq

/-- Modelled from the spec: the `From<Size<f32>>` conversion used by the
source's `return Size {..}.into()` short-circuits — a bare size with no
baselines and empty margin sets. -/
def sizeToSBM (s : Size ℚ) : SizeBaselinesAndMargins :=
  { size := s, first_baselines := { x := none, y := none }
    top_margin := CollapsibleMarginSet.zero, bottom_margin := CollapsibleMarginSet.zero
    margins_can_collapse_through := false }

/-- The style fields that the block algorithm reads (`Style` itself is
not under src/; this is its projection onto the fields used by
block.rs).  `aspect` is the source's `aspect_ratio` field. -/
structure BlockStyle where
  display : Display
  position : Position
  overflow : Point Overflow
  scrollbar_width : ℚ
  aspect : Option ℚ
  margin : Rect LengthPercentageAuto
  inset : Rect LengthPercentageAuto
  padding : Rect LengthPercentage
  border : Rect LengthPercentage
  size : Size Dimension
  min_size : Size Dimension
  max_size : Size Dimension

/-! ## The block algorithm's container sizing
(src/src/compute/block.rs, `compute` lines 98–149 and `compute_inner`
lines 152–298) -/

/-- The results of the block algorithm's per-child recursion, abstracted:
`content_width` is the result of `determine_content_based_container_width`
(lines 332–361) for a given available width; `in_flow` is the triple
`(intrinsic_outer_height, first_child_top_margin_set,
last_child_bottom_margin_set)` returned by
`perform_final_layout_on_in_flow_children` (lines 365–491) for a given
container outer width; `first_baseline` and `children_collapsible` are
the item-derived values of steps 6 and 7 (lines 269–279).  All of these
depend on recursive `perform_child_layout` calls into the tree; the
theorems below hold for every possible value of them. -/
structure BlockChildrenOracle where
  content_width : AvailableSpace → ℚ
  in_flow : ℚ → ℚ × CollapsibleMarginSet × CollapsibleMarginSet
  first_baseline : Option ℚ
  children_collapsible : Bool

/-- `compute_inner` (block.rs lines 152–298), with the child recursion
supplied by `oracle`:

* resolves size/min/max/padding/border and the scrollbar gutter,
* determines `container_outer_width` from the known width, else from the
  content-based width clamped by min/max (lines 212–217),
* short-circuits `ComputeSize` runs with a known height (lines 220–222),
* determines `container_outer_height` from the known height, else from
  the in-flow intrinsic height clamped by min/max (lines 237–238),
* short-circuits `ComputeSize` runs (lines 242–244), and otherwise
* assembles the full output record (lines 269–297).  Steps 4 and 5
  (absolute and hidden children, lines 246–267) only write child layouts
  into the tree and do not affect the returned record. -/
def block_compute_inner (oracle : BlockChildrenOracle) (style : BlockStyle)
    (known_dimensions : Size (Option ℚ)) (parent_size : Size (Option ℚ))
    (available_space : Size AvailableSpace) (run_mode : RunMode)
    (vertical_margins_are_collapsible : Line Bool) : SizeBaselinesAndMargins :=
  let aspect := style.aspect
  let size := (style.size.maybe_resolve parent_size).maybe_apply_aspect aspect
  let min_size := (style.min_size.maybe_resolve parent_size).maybe_apply_aspect aspect
  let max_size := (style.max_size.maybe_resolve parent_size).maybe_apply_aspect aspect
  let padding := style.padding.resolve_or_zero_lp parent_size.width
  let border := style.border.resolve_or_zero_lp parent_size.width
  let scrollbar_gutter :=
    let offsets := (style.overflow.transpose)
    let ox := if offsets.x = Overflow.scroll then style.scrollbar_width else 0
    let oy := if offsets.y = Overflow.scroll then style.scrollbar_width else 0
    Rect.mk 0 ox 0 oy
  let content_box_inset := (padding.add border).add scrollbar_gutter
  let own_margins_collapse_with_children : Line Bool :=
    { start := vertical_margins_are_collapsible.start
        && !style.overflow.y.is_scroll_container
        && decide (style.position = Position.relative)
        && decide (padding.top = 0)
        && decide (border.top = 0)
      finish := vertical_margins_are_collapsible.finish
        && !style.overflow.y.is_scroll_container
        && decide (style.position = Position.relative)
        && decide (padding.bottom = 0)
        && decide (border.bottom = 0)
        && size.height.isNone }
  let has_styles_preventing_being_collapsed_through :=
    decide (style.display ≠ Display.block)
      || style.overflow.y.is_scroll_container
      || decide (style.position = Position.absolute)
      || decide (padding.top > 0)
      || decide (padding.bottom > 0)
      || decide (border.top > 0)
      || decide (border.bottom > 0)
  let container_outer_width :=
    match known_dimensions.width with
    | some w => w
    | none =>
      let available_width := available_space.width.maybe_sub content_box_inset.horizontal_axis_sum
      let intrinsic_width := oracle.content_width available_width + content_box_inset.horizontal_axis_sum
      maybe_clamp_q intrinsic_width min_size.width max_size.width
  match run_mode, known_dimensions.height with
  | RunMode.computeSize, some container_outer_height =>
    sizeToSBM { width := container_outer_width, height := container_outer_height }
  | _, _ =>
    let resolved_padding := style.padding.resolve_or_zero_lp (some container_outer_width)
    let resolved_border := style.border.resolve_or_zero_lp (some container_outer_width)
    let resolved_content_box_inset := (resolved_padding.add resolved_border).add scrollbar_gutter
    let inflow := oracle.in_flow container_outer_width
    let intrinsic_outer_height := inflow.1
    let first_child_top_margin_set := inflow.2.1
    let last_child_bottom_margin_set := inflow.2.2
    let container_outer_height :=
      (known_dimensions.height).getD
        (maybe_clamp_q intrinsic_outer_height min_size.height max_size.height)
    let final_outer_size : Size ℚ :=
      { width := container_outer_width, height := container_outer_height }
    if run_mode = RunMode.computeSize then sizeToSBM final_outer_size
    else
      let _ := resolved_content_box_inset
      let can_be_collapsed_through :=
        !has_styles_preventing_being_collapsed_through && oracle.children_collapsible
      { size := final_outer_size
        first_baselines := { x := none, y := oracle.first_baseline }
        top_margin :=
          if own_margins_collapse_with_children.start then first_child_top_margin_set
          else CollapsibleMarginSet.from_margin
            (style.margin.top.resolve_or_zero_opt parent_size.width)
        bottom_margin :=
          if own_margins_collapse_with_children.finish then last_child_bottom_margin_set
          else CollapsibleMarginSet.from_margin
            (style.margin.bottom.resolve_or_zero_opt parent_size.width)
        margins_can_collapse_through := can_be_collapsed_through }

/-- The `styled_based_known_dimensions` computation of `compute`
(block.rs lines 110–128): the externally known dimensions, else the
min/max-determined size (where both bounds are definite with `max ≤ min`
the axis resolves to `min`, lines 117–121), else the clamped style size,
else — for the width only — the definite available space minus the
horizontal margins. -/
def styled_known (style : BlockStyle) (known_dimensions : Size (Option ℚ))
    (parent_size : Size (Option ℚ)) (available_space : Size AvailableSpace) :
    Size (Option ℚ) :=
  let aspect := style.aspect
  let margin := style.margin.resolve_or_zero_lpa parent_size.width
  let min_size := (style.min_size.maybe_resolve parent_size).maybe_apply_aspect aspect
  let max_size := (style.max_size.maybe_resolve parent_size).maybe_apply_aspect aspect
  let clamped_style_size :=
    ((style.size.maybe_resolve parent_size).maybe_apply_aspect aspect).maybe_clamp
      min_size max_size
  let min_max_definite_size : Size (Option ℚ) :=
    { width :=
        match min_size.width, max_size.width with
        | some mn, some mx => if mx ≤ mn then some mn else none
        | _, _ => none
      height :=
        match min_size.height, max_size.height with
        | some mn, some mx => if mx ≤ mn then some mn else none
        | _, _ => none }
  let available_space_based_size : Size (Option ℚ) :=
    { width := maybe_sub_opt available_space.width.into_option margin.horizontal_axis_sum
      height := none }
  ((known_dimensions.orFields min_max_definite_size).orFields
    clamped_style_size).orFields available_space_based_size

/-- `compute` (block.rs lines 98–149): derive the style-based known
dimensions (`styled_known`), short-circuit fully-determined
`ComputeSize` runs (lines 130–136), else run `compute_inner` with
them. -/
def block_compute (oracle : BlockChildrenOracle) (style : BlockStyle)
    (known_dimensions : Size (Option ℚ)) (parent_size : Size (Option ℚ))
    (available_space : Size AvailableSpace) (run_mode : RunMode)
    (vertical_margins_are_collapsible : Line Bool) : SizeBaselinesAndMargins :=
  match run_mode, styled_known style known_dimensions parent_size available_space with
  | RunMode.computeSize, { width := some width, height := some height } =>
    sizeToSBM { width := width, height := height }
  | _, _ =>
    block_compute_inner oracle style
      (styled_known style known_dimensions parent_size available_space) parent_size
      available_space run_mode vertical_margins_are_collapsible

theorem maybe_apply_aspect_width {s : Size (Option ℚ)} {w : ℚ} (r : Option ℚ)
    (h : s.width = some w) : (s.maybe_apply_aspect r).width = some w := by
  cases r with
  | none => exact h
  | some r =>
    cases hsw : s.width with
    | none => rw [hsw] at h; cases h
    | some w2 =>
      rw [hsw] at h
      cases hsh : s.height with
      | none => simp only [Size.maybe_apply_aspect, hsw, hsh]; exact h
      | some h2 => simp only [Size.maybe_apply_aspect, hsw, hsh]; exact h

theorem maybe_apply_aspect_height {s : Size (Option ℚ)} {h : ℚ} (r : Option ℚ)
    (hh : s.height = some h) : (s.maybe_apply_aspect r).height = some h := by
  cases r with
  | none => exact hh
  | some r =>
    cases hsh : s.height with
    | none => rw [hsh] at hh; cases hh
    | some h2 =>
      rw [hsh] at hh
      cases hsw : s.width with
      | none => simp only [Size.maybe_apply_aspect, hsw, hsh]; exact hh
      | some w2 => simp only [Size.maybe_apply_aspect, hsw, hsh]; exact hh

theorem block_compute_inner_width (oracle : BlockChildrenOracle) (style : BlockStyle)
    (kd : Size (Option ℚ)) (ps : Size (Option ℚ)) (avs : Size AvailableSpace)
    (rm : RunMode) (vmc : Line Bool) (w : ℚ) (hw : kd.width = some w) :
    (block_compute_inner oracle style kd ps avs rm vmc).size.width = w := by
  simp only [block_compute_inner, hw]
  cases rm <;> cases hh : kd.height <;>
    simp [sizeToSBM]

theorem block_compute_inner_height (oracle : BlockChildrenOracle) (style : BlockStyle)
    (kd : Size (Option ℚ)) (ps : Size (Option ℚ)) (avs : Size AvailableSpace)
    (rm : RunMode) (vmc : Line Bool) (h : ℚ) (hh : kd.height = some h) :
    (block_compute_inner oracle style kd ps avs rm vmc).size.height = h := by
  simp only [block_compute_inner, hh]
  cases rm <;>
    simp [sizeToSBM]

theorem styled_known_width (style : BlockStyle) (kd ps : Size (Option ℚ))
    (avs : Size AvailableSpace) (a b : ℚ) (hkd : kd.width = none)
    (h1 : style.min_size.width = Dimension.length a)
    (h2 : style.max_size.width = Dimension.length b) (h3 : b ≤ a) :
    (styled_known style kd ps avs).width = some a := by
  have hmn : ((style.min_size.maybe_resolve ps).maybe_apply_aspect style.aspect).width
      = some a :=
    maybe_apply_aspect_width _ (by simp [Size.maybe_resolve, h1, Dimension.maybe_resolve_opt])
  have hmx : ((style.max_size.maybe_resolve ps).maybe_apply_aspect style.aspect).width
      = some b :=
    maybe_apply_aspect_width _ (by simp [Size.maybe_resolve, h2, Dimension.maybe_resolve_opt])
  simp only [styled_known, Size.orFields, hkd, hmn, hmx]
  simp [if_pos h3]

theorem styled_known_height (style : BlockStyle) (kd ps : Size (Option ℚ))
    (avs : Size AvailableSpace) (a b : ℚ) (hkd : kd.height = none)
    (h1 : style.min_size.height = Dimension.length a)
    (h2 : style.max_size.height = Dimension.length b) (h3 : b ≤ a) :
    (styled_known style kd ps avs).height = some a := by
  have hmn : ((style.min_size.maybe_resolve ps).maybe_apply_aspect style.aspect).height
      = some a :=
    maybe_apply_aspect_height _ (by simp [Size.maybe_resolve, h1, Dimension.maybe_resolve_opt])
  have hmx : ((style.max_size.maybe_resolve ps).maybe_apply_aspect style.aspect).height
      = some b :=
    maybe_apply_aspect_height _ (by simp [Size.maybe_resolve, h2, Dimension.maybe_resolve_opt])
  simp only [styled_known, Size.orFields, hkd, hmn, hmx]
  simp [if_pos h3]

/-- Claim C5: min overrides max in the block algorithm.  On any axis
styled with `min_size = Length(a)` and `max_size = Length(b)` where
`b < a`, the computed size on that axis equals `a` — regardless of the
style size, of the available space (and of the parent size, the run
mode, and whatever the child recursion produces).  The node is laid out
with no externally imposed known dimensions, as at the top level. -/
theorem block_min_overrides_max (oracle : BlockChildrenOracle) (style : BlockStyle)
    (parent_size : Size (Option ℚ)) (available_space : Size AvailableSpace)
    (run_mode : RunMode) (vmc : Line Bool) (a b ah bh : ℚ) :
    (style.min_size.width = Dimension.length a → style.max_size.width = Dimension.length b →
      b < a →
      (block_compute oracle style { width := none, height := none } parent_size
        available_space run_mode vmc).size.width = a)
    ∧ (style.min_size.height = Dimension.length ah →
      style.max_size.height = Dimension.length bh → bh < ah →
      (block_compute oracle style { width := none, height := none } parent_size
        available_space run_mode vmc).size.height = ah) := by
  constructor
  · intro h1 h2 h3
    have hw : (styled_known style { width := none, height := none } parent_size
        available_space).width = some a :=
      styled_known_width style _ parent_size available_space a b rfl h1 h2 (le_of_lt h3)
    have hst : styled_known style { width := none, height := none } parent_size
        available_space
        = { width := some a
            height := (styled_known style { width := none, height := none } parent_size
              available_space).height } := by
      rw [← hw]
    cases hrm : run_mode with
    | computeSize =>
      cases hh : (styled_known style { width := none, height := none } parent_size
          available_space).height with
      | some hgt =>
        rw [hh] at hst
        simp only [block_compute, hst]
        simp [sizeToSBM]
      | none =>
        rw [hh] at hst
        simp only [block_compute, hst]
        exact block_compute_inner_width oracle style _ parent_size available_space _ vmc a rfl
    | peformLayout =>
      cases hh : (styled_known style { width := none, height := none } parent_size
          available_space).height with
      | some hgt =>
        rw [hh] at hst
        simp only [block_compute, hst]
        exact block_compute_inner_width oracle style _ parent_size available_space _ vmc a rfl
      | none =>
        rw [hh] at hst
        simp only [block_compute, hst]
        exact block_compute_inner_width oracle style _ parent_size available_space _ vmc a rfl
  · intro h1 h2 h3
    have hht : (styled_known style { width := none, height := none } parent_size
        available_space).height = some ah :=
      styled_known_height style _ parent_size available_space ah bh rfl h1 h2 (le_of_lt h3)
    have hst : styled_known style { width := none, height := none } parent_size
        available_space
        = { width := (styled_known style { width := none, height := none } parent_size
              available_space).width
            height := some ah } := by
      rw [← hht]
    cases hrm : run_mode with
    | computeSize =>
      cases hh : (styled_known style { width := none, height := none } parent_size
          available_space).width with
      | some wdt =>
        rw [hh] at hst
        simp only [block_compute, hst]
        simp [sizeToSBM]
      | none =>
        rw [hh] at hst
        simp only [block_compute, hst]
        exact block_compute_inner_height oracle style _ parent_size available_space _ vmc ah rfl
    | peformLayout =>
      cases hh : (styled_known style { width := none, height := none } parent_size
          available_space).width with
      | some wdt =>
        rw [hh] at hst
        simp only [block_compute, hst]
        exact block_compute_inner_height oracle style _ parent_size available_space _ vmc ah rfl
      | none =>
        rw [hh] at hst
        simp only [block_compute, hst]
        exact block_compute_inner_height oracle style _ parent_size available_space _ vmc ah rfl

/-- The concrete style of the C5 witness, mirroring the repo's test
`min_overrides_max` (tests/min_max_overrides.rs): `size` 50×50,
`min_size` 100×100, `max_size` 10×10, defaults elsewhere. -/
def c5style : BlockStyle :=
  { display := Display.block
    position := Position.relative
    overflow := { x := Overflow.visible, y := Overflow.visible }
    scrollbar_width := 0
    aspect := none
    margin := Rect.mk (LengthPercentageAuto.length 0) (LengthPercentageAuto.length 0)
      (LengthPercentageAuto.length 0) (LengthPercentageAuto.length 0)
    inset := Rect.mk LengthPercentageAuto.auto LengthPercentageAuto.auto
      LengthPercentageAuto.auto LengthPercentageAuto.auto
    padding := Rect.mk (LengthPercentage.length 0) (LengthPercentage.length 0)
      (LengthPercentage.length 0) (LengthPercentage.length 0)
    border := Rect.mk (LengthPercentage.length 0) (LengthPercentage.length 0)
      (LengthPercentage.length 0) (LengthPercentage.length 0)
    size := { width := Dimension.length 50, height := Dimension.length 50 }
    min_size := { width := Dimension.length 100, height := Dimension.length 100 }
    max_size := { width := Dimension.length 10, height := Dimension.length 10 } }

/-- A trivial child oracle (the C5 witness node has no children). -/
def c5oracle : BlockChildrenOracle :=
  { content_width := fun _ => 0
    in_flow := fun _ => (0, CollapsibleMarginSet.zero, CollapsibleMarginSet.zero)
    first_baseline := none
    children_collapsible := true }

/-- Witness for claim C5 at the repo's own test input (`min_overrides_max`):
min 100 beats both the style size 50 and max 10 on both axes, under
definite 100×100 available space. -/
theorem block_min_overrides_max_witness :
    c5style.min_size.width = Dimension.length 100
    ∧ c5style.max_size.width = Dimension.length 10
    ∧ c5style.min_size.height = Dimension.length 100
    ∧ c5style.max_size.height = Dimension.length 10
    ∧ (10 : ℚ) < 100
    ∧ (block_compute c5oracle c5style { width := none, height := none }
        { width := none, height := none }
        { width := .definite 100, height := .definite 100 } .peformLayout
        { start := false, finish := false }).size.width = 100
    ∧ (block_compute c5oracle c5style { width := none, height := none }
        { width := none, height := none }
        { width := .definite 100, height := .definite 100 } .peformLayout
        { start := false, finish := false }).size.height = 100 :=
  ⟨rfl, rfl, rfl, rfl, by norm_num,
   (block_min_overrides_max c5oracle c5style { width := none, height := none }
      { width := .definite 100, height := .definite 100 } .peformLayout
      { start := false, finish := false } 100 10 100 10).1 rfl rfl (by norm_num),
   (block_min_overrides_max c5oracle c5style { width := none, height := none }
      { width := .definite 100, height := .definite 100 } .peformLayout
      { start := false, finish := false } 100 10 100 10).2 rfl rfl (by norm_num)⟩

/-! ## Absolute positioning in the block algorithm
(src/src/compute/block.rs, `perform_absolute_layout_on_absolute_children`,
lines 495–653) -/

/-- `Option<f32>::maybe_max(f32)` (modelled from the spec's maybe-math):
raise a present value to at least the bound. -/
def maybe_max_opt (o : Option ℚ) (v : ℚ) : Option ℚ := o.map (fun x => Max.max x v)

/-- Axis-wise `maybe_clamp` of a definite size against optional bounds. -/
def Size.maybe_clamp_def (s : Size ℚ) (mn mx : Size (Option ℚ)) : Size ℚ :=
  { width := maybe_clamp_q s.width mn.width mx.width
    height := maybe_clamp_q s.height mn.height mx.height }

/-- The values the absolute-positioning loop computes for one
`Position::Absolute` item. -/
structure AbsItemResult where
  final_size : Size ℚ
  resolved_margin : Rect ℚ
  location : Point ℚ
deriving Repr, DecidableEq

/-- The body of `perform_absolute_layout_on_absolute_children` for a
single absolutely-positioned item (block.rs lines 505–651), as a pure
function of the child's style, the containing area, the item's static
`y` position, and the measured size the recursive
`perform_child_layout` call returns (lines 553–563) — the margin and
position computation is independent of how that size was measured.
`resolved_margin` is the intermediate of lines 632–637; the source
stores `Layout { order, size: final_size, location: area_offset +
item_offset }`.  Note line 571 of the source computes the bottom
non-auto margin from `margin.left`; this embedding reproduces that
faithfully. -/
def perform_absolute_layout_on_item (child_style : BlockStyle) (area_size : Size ℚ)
    (area_offset : Point ℚ) (static_position_y : ℚ) (measured_size : Size ℚ) :
    AbsItemResult :=
  let area_width := area_size.width
  let area_height := area_size.height
  let aspect := child_style.aspect
  let margin : Rect (Option ℚ) :=
    { left := child_style.margin.left.resolve_to_option area_width
      right := child_style.margin.right.resolve_to_option area_width
      top := child_style.margin.top.resolve_to_option area_width
      bottom := child_style.margin.bottom.resolve_to_option area_width }
  let padding := child_style.padding.resolve_or_zero_lp (some area_width)
  let border := child_style.border.resolve_or_zero_lp (some area_width)
  let padding_border_sum := (padding.add border).sum_axes
  let left := child_style.inset.left.resolve_to_option area_width
  let right := child_style.inset.right.resolve_to_option area_width
  let top := child_style.inset.top.resolve_to_option area_height
  let bottom := child_style.inset.bottom.resolve_to_option area_height
  let style_size := (child_style.size.maybe_resolve_def area_size).maybe_apply_aspect aspect
  let min_size :=
    let m0 := ((child_style.min_size.maybe_resolve_def area_size).maybe_apply_aspect
      aspect).orFields
      { width := some padding_border_sum.width, height := some padding_border_sum.height }
    { width := maybe_max_opt m0.width padding_border_sum.width
      height := maybe_max_opt m0.height padding_border_sum.height : Size (Option ℚ) }
  let max_size := (child_style.max_size.maybe_resolve_def area_size).maybe_apply_aspect aspect
  let known0 := style_size.maybe_clamp min_size max_size
  let known1 :=
    match known0.width, left, right with
    | none, some l, some r =>
      let new_width_raw := maybe_sub_q (maybe_sub_q area_width margin.left) margin.right - l - r
      (({ known0 with width := some (Max.max new_width_raw 0) }).maybe_apply_aspect
        aspect).maybe_clamp min_size max_size
    | _, _, _ => known0
  let known2 :=
    match known1.height, top, bottom with
    | none, some t, some b =>
      let new_height_raw :=
        maybe_sub_q (maybe_sub_q area_height margin.top) margin.bottom - t - b
      (({ known1 with height := some (Max.max new_height_raw 0) }).maybe_apply_aspect
        aspect).maybe_clamp min_size max_size
    | _, _, _ => known1
  let final_size := (known2.unwrap_or measured_size).maybe_clamp_def min_size max_size
  let non_auto_margin : Rect ℚ :=
    { left := if left.isSome then margin.left.getD 0 else 0
      right := if right.isSome then margin.right.getD 0 else 0
      top := if top.isSome then margin.top.getD 0 else 0
      bottom := if bottom.isSome then margin.left.getD 0 else 0 }
  let absolute_auto_margin_space : Point ℚ :=
    { x := (right.map (fun r => area_size.width - r - left.getD 0)).getD final_size.width
      y := (bottom.map (fun b => area_size.height - b - top.getD 0)).getD final_size.height }
  let free_space : Size ℚ :=
    { width := absolute_auto_margin_space.x - final_size.width
        - non_auto_margin.horizontal_axis_sum
      height := absolute_auto_margin_space.y - final_size.height
        - non_auto_margin.vertical_axis_sum }
  let auto_margin_size : Size ℚ :=
    { width :=
        let auto_margin_count : ℕ :=
          (if margin.left.isNone then 1 else 0) + (if margin.right.isNone then 1 else 0)
        let width_free_cond :=
          match style_size.width with
          | none => true
          | some w => decide (w ≥ free_space.width)
        if auto_margin_count = 2 && width_free_cond then 0
        else if 0 < auto_margin_count then free_space.width / (auto_margin_count : ℚ)
        else 0
      height :=
        let auto_margin_count : ℕ :=
          (if margin.top.isNone then 1 else 0) + (if margin.bottom.isNone then 1 else 0)
        let height_free_cond :=
          match style_size.height with
          | none => true
          | some h => decide (h ≥ free_space.height)
        if auto_margin_count = 2 && height_free_cond then 0
        else if 0 < auto_margin_count then free_space.height / (auto_margin_count : ℚ)
        else 0 }
  let auto_margin : Rect ℚ :=
    { left := (margin.left.map (fun _ => (0 : ℚ))).getD auto_margin_size.width
      right := (margin.right.map (fun _ => (0 : ℚ))).getD auto_margin_size.width
      top := (margin.top.map (fun _ => (0 : ℚ))).getD auto_margin_size.height
      bottom := (margin.bottom.map (fun _ => (0 : ℚ))).getD auto_margin_size.height }
  let resolved_margin : Rect ℚ :=
    { left := margin.left.getD auto_margin.left
      right := margin.right.getD auto_margin.right
      top := margin.top.getD auto_margin.top
      bottom := margin.bottom.getD auto_margin.bottom }
  let item_offset : Point ℚ :=
    { x := ((left.map (fun l => l + resolved_margin.left)).or
        (right.map (fun r => area_size.width - final_size.width - r
          - resolved_margin.right))).getD resolved_margin.left
      y := ((top.map (fun t => t + resolved_margin.top)).or
        (bottom.map (fun b => area_size.height - final_size.height - b
          - resolved_margin.bottom))).getD (static_position_y + resolved_margin.top) }
  { final_size := final_size
    resolved_margin := resolved_margin
    location := { x := area_offset.x + item_offset.x, y := area_offset.y + item_offset.y } }

/-- The claim's statement of absolute auto-margin resolution on the
vertical axis, written from the claim's words: the leftover space (the
inset-defined span minus the child's final size and its non-auto
margins) is distributed equally across that axis's auto margins. -/
def claimed_abs_auto_margin_y (span final_height : ℚ)
    (margin_top margin_bottom : Option ℚ) : ℚ :=
  let leftover := span - final_height - (margin_top.getD 0 + margin_bottom.getD 0)
  let count : ℕ :=
    (if margin_top.isNone then 1 else 0) + (if margin_bottom.isNone then 1 else 0)
  if 0 < count then leftover / (count : ℚ) else 0

/-- The concrete absolutely-positioned child of the C2 evaluation:
`inset.bottom = 0` (others auto), `margin.top = auto`,
`margin.bottom = 10`, `margin.left = margin.right = 0`, no style size,
measured 20×20 inside a 100×100 area. -/
def c2style : BlockStyle :=
  { display := Display.block
    position := Position.absolute
    overflow := { x := Overflow.visible, y := Overflow.visible }
    scrollbar_width := 0
    aspect := none
    margin := Rect.mk (LengthPercentageAuto.length 0) (LengthPercentageAuto.length 0)
      LengthPercentageAuto.auto (LengthPercentageAuto.length 10)
    inset := Rect.mk LengthPercentageAuto.auto LengthPercentageAuto.auto
      LengthPercentageAuto.auto (LengthPercentageAuto.length 0)
    padding := Rect.mk (LengthPercentage.length 0) (LengthPercentage.length 0)
      (LengthPercentage.length 0) (LengthPercentage.length 0)
    border := Rect.mk (LengthPercentage.length 0) (LengthPercentage.length 0)
      (LengthPercentage.length 0) (LengthPercentage.length 0)
    size := { width := Dimension.auto, height := Dimension.auto }
    min_size := { width := Dimension.auto, height := Dimension.auto }
    max_size := { width := Dimension.auto, height := Dimension.auto } }

/-- Claim C2 (code_bug evaluation): on the concrete child `c2style` the
source's absolute-positioning path resolves the auto top margin to `80`,
while the leftover space as the claim (and the spec) defines it — the
inset span `100` minus the final size `20` minus the non-auto bottom
margin `10` — is `70`.  The divergence is the source's line 571, which
computes the bottom non-auto margin from `margin.left` (here `0`)
instead of `margin.bottom` (here `10`). -/
theorem abs_auto_margin_top_bug :
    (perform_absolute_layout_on_item c2style { width := 100, height := 100 }
      { x := 0, y := 0 } 0 { width := 20, height := 20 }).resolved_margin.top = 80
    ∧ claimed_abs_auto_margin_y 100 20 none (some 10) = 70
    ∧ (80 : ℚ) ≠ 70 := by
  refine ⟨?_, ?_, by norm_num⟩
  · norm_num [perform_absolute_layout_on_item, c2style,
      LengthPercentageAuto.resolve_to_option, Rect.resolve_or_zero_lp,
      LengthPercentage.resolve_or_zero_opt, LengthPercentage.maybe_resolve_opt,
      Rect.add, Rect.sum_axes, Size.maybe_resolve_def, Dimension.maybe_resolve_opt,
      Size.maybe_apply_aspect, Size.maybe_clamp, maybe_clamp_opt, maybe_clamp_q,
      Size.orFields, maybe_max_opt, maybe_sub_q, Size.unwrap_or, Size.maybe_clamp_def,
      Rect.horizontal_axis_sum, Rect.vertical_axis_sum]
  · norm_num [claimed_abs_auto_margin_y]

end Sprawl
